import Mathlib

/-!
# Hermes example extensions: verification of the Extension Host Protocol Runtime

A shallow embedding of the shared protocol substrate of the Hermes example
extensions (`extensions/examples/minimal.py`, `dialog-extension.py`,
`wizard-extension.py`): the frame codec (`read_message` / `write_message`),
the request-correlation machinery (`send_request`, `_pending`,
`handle_response`), the dispatch routers (`handle_request` /
`handle_message`), and the wizard's local HTTP bridge (`do_POST`,
`search_patients`).

JSON documents are modelled by the inductive `JVal`; Python dictionaries
become association lists.  Machine-level boundaries (the stdin/stdout byte
streams, the HTTP socket) are modelled as explicit lists; the stream of
already-decoded inbound messages is a `List JVal`.  Where the Python code
is a loop that may fail to terminate, the embedding is fuel-indexed or
returns an explicit divergence marker.
-/

set_option maxHeartbeats 1000000

/-- JSON values, as produced by `json.loads`.  Python `dict`s keep insertion
order, so objects are association lists. -/
inductive JVal where
  | null
  | bool (b : Bool)
  | num (n : Int)
  | str (s : String)
  | arr (elems : List JVal)
  | obj (fields : List (String × JVal))

/-- Python `msg.get(k)`: `None` both when the key is absent and when the
stored value is JSON `null` (both are Python `None`). -/
def JVal.pyGet (v : JVal) (k : String) : Option JVal :=
  match v with
  | .obj fields =>
    match fields.lookup k with
    | some .null => none
    | some x => some x
    | none => none
  | _ => none

/-- Python `k in msg`: key presence, regardless of the stored value. -/
def JVal.hasKey (v : JVal) (k : String) : Bool :=
  match v with
  | .obj fields => (fields.lookup k).isSome
  | _ => false

/-- Python `msg.get(k, default)`: the stored value when the key is present
(even if `null`), otherwise the default. -/
def JVal.getD (v : JVal) (k : String) (d : JVal) : JVal :=
  match v with
  | .obj fields =>
    match fields.lookup k with
    | some x => x
    | none => d
  | _ => d

/-- Python `d[k]` on a dict whose key is known to be present (the callers
index only after a membership test); `null` stands in for the missing-key
case, which the modelled paths never reach. -/
def JVal.idx (v : JVal) (k : String) : JVal :=
  v.getD k .null

/-- Python truthiness of a JSON value (`None`, `False`, `0`, `""`, `[]`,
and `{}` are falsy). -/
def pyTruthy (v : JVal) : Bool :=
  match v with
  | .null => false
  | .bool b => b
  | .num n => !(n == 0)
  | .str s => !(s == "")
  | .arr es => !es.isEmpty
  | .obj fs => !fs.isEmpty

/-- Truthiness of a `msg.get(k)` result (`None` is falsy). -/
def pyTruthyO (v : Option JVal) : Bool :=
  match v with
  | none => false
  | some x => pyTruthy x

/-- Python `value == request_id` where `request_id` is an `int`: only JSON
numbers (and booleans, which Python compares as `0`/`1`) can be equal to
an integer. -/
def idMatches (v : Option JVal) (rid : Int) : Bool :=
  match v with
  | some (.num j) => j == rid
  | some (.bool b) => (if b then (1 : Int) else 0) == rid
  | _ => false

/-- The integer key that `msg.get("id")` denotes when used as a key of the
pending table (whose keys are the `int`s allocated by `send_request`);
Python `True`/`False` hash like `1`/`0`. -/
def idKeyOf (m : JVal) : Option Int :=
  match m.pyGet "id" with
  | some (.num j) => some j
  | some (.bool b) => some (if b then 1 else 0)
  | _ => none

/-- `msg.get("method") == s` for a string literal `s`. -/
def methodIs (m : JVal) (s : String) : Bool :=
  match m.pyGet "method" with
  | some (.str t) => t == s
  | _ => false

/-- `params.get("command") == s` for a string literal `s` (Python `==`
on a possibly-missing value). -/
def cmdIs (params : JVal) (s : String) : Bool :=
  match params.pyGet "command" with
  | some (.str t) => t == s
  | _ => false

/-- The classification used by every variant: a message carrying a
`result` or `error` key is a Response (`"result" in msg or "error" in msg`). -/
def isRespMsg (m : JVal) : Bool :=
  m.hasKey "result" || m.hasKey "error"

/-- A message that the routers treat as a Request: not response-shaped and
carrying an id. -/
def isReqMsg (m : JVal) : Bool :=
  !isRespMsg m && (m.pyGet "id").isSome

/-- The JSON id field written back into a reply: the request's id, or
`null` when the inbound message had none (Python serialises `None` as
`null`). -/
def jid (rid : Option JVal) : JVal :=
  match rid with
  | some v => v
  | none => .null

/-- Python `str(x)` as it appears inside the f-strings of the handlers;
container reprs are abbreviated, no modelled path formats one. -/
def showJ (v : JVal) : String :=
  match v with
  | .null => "None"
  | .bool true => "True"
  | .bool false => "False"
  | .num n => toString n
  | .str s => s
  | .arr _ => "[...]"
  | .obj _ => "\x7b...\x7d"

/-- `str(msg.get(k))` (absent keys print as `None`). -/
def showJO (v : Option JVal) : String :=
  match v with
  | none => "None"
  | some x => showJ x

/-- The request frame built by every `send_request`:
`{"jsonrpc": "2.0", "id": request_id, "method": method, "params": params}`. -/
def mkRequest (rid : Int) (method : String) (params : JVal) : JVal :=
  .obj [("jsonrpc", .str "2.0"), ("id", .num rid), ("method", .str method),
        ("params", params)]

/-! ## Frame codec: `read_message`

All three examples share a byte-identical `read_message`.  The stdin text
stream is modelled as a `List Char`; Python `readline` returns the prefix
up to and including the first newline, the remainder of the characters
when the stream ends without one, and `""` forever once the stream is
exhausted.  The header loop breaks only on a line equal to `"\r\n"` or
`"\n"`; on an exhausted stream `readline` yields `""`, which neither
breaks the loop nor changes the headers, so the loop never terminates —
the embedding returns an explicit divergence marker for that case. -/

/-- Python whitespace as stripped by `str.strip()` (ASCII fragment). -/
def pyIsSpace (c : Char) : Bool :=
  c == ' ' || c == '\t' || c == '\n' || c == '\x0d' || c == '\x0b' || c == '\x0c'

/-- `str.strip()`. -/
def pyStrip (s : List Char) : List Char :=
  ((s.dropWhile pyIsSpace).reverse.dropWhile pyIsSpace).reverse

/-- `headers[key.strip()] = value.strip()` on a Python dict: later
assignments shadow earlier ones, which an association list realises by
consing in front. -/
def headersInsert (hs : List (String × String)) (k v : String) :
    List (String × String) :=
  (k, v) :: hs

/-- `headers.get(k)`. -/
def headersGet (hs : List (String × String)) (k : String) : Option String :=
  hs.lookup k

/-- One iteration of the header loop on a non-blank line: lines without a
colon are skipped, otherwise `line.split(":", 1)` with both halves
stripped is recorded. -/
def processHeaderLine (hs : List (String × String)) (line : List Char) :
    List (String × String) :=
  if line.contains ':' then
    let k := line.takeWhile (fun c => !(c == ':'))
    let v := (line.dropWhile (fun c => !(c == ':'))).drop 1
    headersInsert hs (pyStrip k).asString (pyStrip v).asString
  else hs

/-- The header-reading loop of `read_message`, reading the stream character
by character (`acc` is the current line read so far, reversed).  `none`
means the loop never terminates: once the stream is exhausted `readline`
returns `""` forever, which is neither of the two blank-line forms, so the
`while True` never breaks. -/
def readHeadersCh : List Char → List Char → List (String × String) →
    Option (List (String × String) × List Char)
  | [], _, _ => none
  | c :: s, acc, hs =>
    if c == '\n' then
      let line := acc.reverse ++ ['\n']
      if line = ['\x0d', '\n'] ∨ line = ['\n'] then some (hs, s)
      else readHeadersCh s [] (processHeaderLine hs line)
    else readHeadersCh s (c :: acc) hs

/-- The value of a list of decimal digit characters, `none` when empty or
not all digits. -/
def digitsVal (ds : List Char) : Option Nat :=
  if ds.isEmpty then none
  else if ds.all Char.isDigit then
    some (ds.foldl (fun a c => a * 10 + (c.toNat - 48)) 0)
  else none

/-- Python `int(s)` on a header value: optional surrounding whitespace and
sign, then decimal digits; anything else raises `ValueError`. -/
def pyInt (s : List Char) : Option Int :=
  match pyStrip s with
  | '-' :: ds => (digitsVal ds).map (fun n => -(n : Int))
  | '+' :: ds => (digitsVal ds).map (fun n => (n : Int))
  | ds => (digitsVal ds).map (fun n => (n : Int))

/-- `int(headers.get("Content-Length", 0))`: the integer default needs no
parse; a present value must parse or the read raises. -/
def contentLengthOf (hs : List (String × String)) : Option Int :=
  match headersGet hs "Content-Length" with
  | none => some 0
  | some v => pyInt v.data

/-- Outcome of one `read_message` call. `diverge`: the header loop never
returns (stream closed before a blank line); `raised`: an exception
propagates (unparsable `Content-Length`); `eos`: returned `None`;
`msg content rest`: returned the JSON text `content`, leaving `rest`
unconsumed. -/
inductive ReadRes where
  | diverge
  | raised
  | eos
  | msg (content : List Char) (rest : List Char)

/-- `read_message` over the character stream.  A negative `Content-Length`
makes `sys.stdin.read` consume the whole remaining stream. -/
def read_message (s : List Char) : ReadRes :=
  match readHeadersCh s [] [] with
  | none => .diverge
  | some (hs, rest) =>
    match contentLengthOf hs with
    | none => .raised
    | some n =>
      if n = 0 then .eos
      else if n < 0 then .msg rest []
      else .msg (rest.take n.toNat) (rest.drop n.toNat)

/-! ## Frame codec: `write_message`

The writer serialises the message with `json.dumps`, then emits the single
f-string `"Content-Length: {len(content.encode('utf-8'))}\r\n\r\n"`
followed by the document itself, both through the UTF-8 stdout encoder.
The output is modelled at the byte level (`List Nat`, each < 256). -/

/-- UTF-8 encoding of one Unicode scalar value. -/
def charUtf8 (c : Char) : List Nat :=
  let n := c.toNat
  if n < 0x80 then [n]
  else if n < 0x800 then
    [0xC0 + n / 0x40, 0x80 + n % 0x40]
  else if n < 0x10000 then
    [0xE0 + n / 0x1000, 0x80 + n / 0x40 % 0x40, 0x80 + n % 0x40]
  else
    [0xF0 + n / 0x40000, 0x80 + n / 0x1000 % 0x40, 0x80 + n / 0x40 % 0x40,
     0x80 + n % 0x40]

/-- `s.encode("utf-8")` as a byte list. -/
def utf8 (s : String) : List Nat :=
  s.data.flatMap charUtf8

/-- Decimal digits of a natural number, as produced by `f"{n}"`. -/
def decDigits (n : Nat) : List Char :=
  if h : n < 10 then [Char.ofNat (48 + n)]
  else decDigits (n / 10) ++ [Char.ofNat (48 + n % 10)]
  decreasing_by exact Nat.div_lt_self (by omega) (by omega)

/-- `write_message`, given the `json.dumps` output `content`: the bytes
put on stdout. -/
def write_message (content : String) : List Nat :=
  utf8 ("Content-Length: " ++ (decDigits (utf8 content).length).asString
        ++ "\x0d\n\x0d\n") ++ utf8 content

/-- The bytes that a framing-aware reader consumes after the first blank
line `\r\n\r\n` of a frame. -/
def afterBlank : List Nat → Option (List Nat)
  | [] => none
  | b :: rest =>
    if b = 13 then
      match rest with
      | 10 :: 13 :: 10 :: rest' => some rest'
      | _ => afterBlank rest
    else afterBlank rest

/-! ## Correlation engine (wizard variant)

`wizard-extension.py` keeps `_pending : dict[int, Event | dict]` guarded
by `_message_lock`.  `send_request` allocates an id, stores a fresh
`threading.Event`, writes the request, waits on the event with a 30 s
timeout and then pops the entry: an `Event` still stored means timeout, a
dict is the response.  `handle_response` (called only from the main read
loop) replaces a stored entry by the response message and calls `.set()`
on what was stored before — which is an `AttributeError` when that was
already a response dict. -/

/-- A pending-table entry: the registered `threading.Event`, or the
response stored by `handle_response`. -/
inductive PEntry where
  | waiting
  | resolved (m : JVal)

/-- The pending table. -/
def Table := List (Int × PEntry)

/-- `_pending.pop(k)` / `del` — removal of a key. -/
def terase (t : Table) (k : Int) : Table :=
  t.filter (fun p => !(p.1 == k))

/-- `_pending[k] = e` — dict assignment. -/
def tinsert (t : Table) (k : Int) (e : PEntry) : Table :=
  (k, e) :: terase t k

/-- `_pending.get(k)` / `k in _pending` combined. -/
def tlookup (t : Table) (k : Int) : Option PEntry :=
  List.lookup k t

/-- Result of one `handle_response` call: the table afterwards, whether an
event was signalled, and whether the call raised `AttributeError`
(`.set()` on a stored dict). -/
structure HRes where
  table : Table
  signaled : Bool
  crashed : Bool

/-- `handle_response` (wizard-extension.py lines 165-172).  The table is
already reassigned when `.set()` is attempted, so on the crashing path the
duplicate has replaced the stored response. -/
def handle_response (t : Table) (m : JVal) : HRes :=
  match idKeyOf m with
  | some i =>
    match tlookup t i with
    | some e =>
      let t' := tinsert t i (.resolved m)
      match e with
      | .waiting => ⟨t', true, false⟩
      | .resolved _ => ⟨t', false, true⟩
    | none => ⟨t, false, false⟩
  | none => ⟨t, false, false⟩

/-- Folding the main loop's response handling over a list of inbound
responses (only the table component matters to a later reader). -/
def applyResponses (t : Table) (ms : List JVal) : Table :=
  ms.foldl (fun acc m => (handle_response acc m).table) t

/-- How a `send_request` call concludes. -/
inductive SendOutcome where
  | value (v : JVal)
  | timeoutErr
  | requestLost

/-- Table and outcome after the post-wait section of `send_request`. -/
structure FinishRes where
  outcome : SendOutcome
  table : Table

/-- The code after `wait(timeout=30)` in the wizard `send_request`
(lines 155-162): pop the entry; a still-stored `Event` raises
`TimeoutError`, a stored dict is returned; a missing entry raises
`Exception("Request lost")`. -/
def sendRequestFinish (t : Table) (rid : Int) : FinishRes :=
  match tlookup t rid with
  | some e =>
    let t' := terase t rid
    match e with
    | .waiting => ⟨.timeoutErr, t'⟩
    | .resolved m => ⟨.value m, t'⟩
  | none => ⟨.requestLost, t⟩

/-! ## Id allocation

Both `send_request` variants run `request_id = _next_id; _next_id += 1`
(in the wizard, inside `_message_lock`, so concurrent senders serialise
and every schedule is some sequence of these atomic steps). -/

/-- One atomic id allocation: the issued id and the new counter. -/
def allocId (nextId : Int) : Int × Int :=
  (nextId, nextId + 1)

/-- The ids issued by `k` successive allocations starting from counter
`n`. -/
def idSeq (n : Int) : Nat → List Int
  | 0 => []
  | k + 1 => (allocId n).1 :: idSeq (allocId n).2 k

/-! ## Local UI bridge (wizard variant)

`WizardHandler.do_POST` mutates the module globals `wizard_result` and
`wizard_event` with no lock and no already-set check; the background
worker (`execute_patient_lookup`) blocks on the event and then reads
`wizard_result`. -/

/-- The simulated patient database `PATIENTS` (insertion order kept). -/
def patientsList : List (String × JVal) :=
  [("12345678", .obj
     [("mrn", .str "12345678"), ("lastName", .str "DOE"),
      ("firstName", .str "JOHN"), ("middleName", .str "Q"),
      ("dob", .str "19800115"), ("sex", .str "M"),
      ("address", .obj
        [("street", .str "123 MAIN ST"), ("city", .str "ANYTOWN"),
         ("state", .str "ON"), ("zip", .str "A1A 1A1")]),
      ("phone", .str "5551234567"), ("accountNumber", .str "ACC001234")]),
   ("87654321", .obj
     [("mrn", .str "87654321"), ("lastName", .str "SMITH"),
      ("firstName", .str "JANE"), ("middleName", .str "A"),
      ("dob", .str "19751220"), ("sex", .str "F"),
      ("address", .obj
        [("street", .str "456 OAK AVE"), ("city", .str "SOMEWHERE"),
         ("state", .str "BC"), ("zip", .str "V1V 1V1")]),
      ("phone", .str "5559876543"), ("accountNumber", .str "ACC005678")]),
   ("11112222", .obj
     [("mrn", .str "11112222"), ("lastName", .str "DOE"),
      ("firstName", .str "JANE"), ("middleName", .str "B"),
      ("dob", .str "19850310"), ("sex", .str "F"),
      ("address", .obj
        [("street", .str "789 PINE RD"), ("city", .str "ANYTOWN"),
         ("state", .str "ON"), ("zip", .str "A2A 2A2")]),
      ("phone", .str "5555551234"), ("accountNumber", .str "ACC009999")])]

/-- `needle` is a prefix of `hay` (`str.startswith`). -/
def strStarts : List Char → List Char → Bool
  | [], _ => true
  | _ :: _, [] => false
  | a :: as, b :: bs => a == b && strStarts as bs

/-- `needle in hay` for Python strings (substring test). -/
def strHasSub (needle : List Char) : List Char → Bool
  | [] => needle.isEmpty
  | c :: t => strStarts needle (c :: t) || strHasSub needle t

/-- `query.upper()` (the patient data is ASCII). -/
def pyUpper (s : String) : String :=
  ⟨s.data.map Char.toUpper⟩

/-- The string stored in a patient field (all modelled fields are
strings). -/
def jStr (v : JVal) : String :=
  match v with
  | .str s => s
  | _ => ""

/-- `search_patients` (wizard-extension.py lines 495-509): match by MRN
prefix or last-name substring, returning the summary dicts in database
order. -/
def search_patients (query : String) : List JVal :=
  let q := pyUpper query
  patientsList.filterMap (fun p =>
    if strStarts q.data p.1.data
       || strHasSub q.data (jStr (p.2.idx "lastName")).data then
      some (.obj [("mrn", p.2.idx "mrn"), ("lastName", p.2.idx "lastName"),
                  ("firstName", p.2.idx "firstName")])
    else none)

/-- The globals shared between the HTTP handler thread and the background
worker: `wizard_result` and `wizard_event`. -/
structure BridgeState where
  result : Option JVal
  eventSet : Bool

/-- State after `wizard_event.clear()` / `wizard_result = None`. -/
def bridgeCleared : BridgeState :=
  ⟨none, false⟩

/-- The Interaction Result stored by `/api/apply` for a found patient. -/
def applyResult (patient : JVal) : JVal :=
  .obj [("action", .str "apply"), ("patient", patient)]

/-- The Interaction Result stored by `/api/cancel`. -/
def cancelResult : JVal :=
  .obj [("action", .str "cancel")]

/-- `WizardHandler.do_POST` (wizard-extension.py lines 524-555): the new
shared state and the JSON body sent back to the browser.  Neither handler
checks whether the event is already set; both assign `wizard_result`
unconditionally before calling `wizard_event.set()`. -/
def do_POST (st : BridgeState) (path : String) (body : JVal) :
    BridgeState × JVal :=
  if path = "/api/search" then
    let query := jStr (body.getD "query" (.str ""))
    (st, .obj [("patients", .arr (search_patients query))])
  else if path = "/api/apply" then
    let mrn := jStr (body.getD "mrn" (.str ""))
    match patientsList.lookup mrn with
    | some patient =>
      (⟨some (applyResult patient), true⟩, .obj [("success", .bool true)])
    | none =>
      (st, .obj [("success", .bool false),
                 ("message", .str "Patient not found")])
  else if path = "/api/cancel" then
    (⟨some cancelResult, true⟩, .obj [("success", .bool true)])
  else
    (st, .obj [("httpError", .num 404)])

/-- A sequence of browser POSTs applied to the shared state. -/
def runPosts (st : BridgeState) (ps : List (String × JVal)) : BridgeState :=
  ps.foldl (fun s p => (do_POST s p.1 p.2).1) st

/-- The Interaction Result a POST stores, if any: `/api/apply` with a
known MRN, or `/api/cancel`. -/
def postEffect (p : String × JVal) : Option JVal :=
  if p.1 = "/api/search" then none
  else if p.1 = "/api/apply" then
    (patientsList.lookup (jStr (p.2.getD "mrn" (.str "")))).map applyResult
  else if p.1 = "/api/cancel" then some cancelResult
  else none

/-! ## Wizard dispatch router and main loop

`wizard-extension.py`'s `main` reads messages in a loop: response-shaped
messages go to `handle_response`, everything else to `handle_message`.
`handle_message` treats id-less messages as notifications (only
`command/execute` is known, and it merely spawns the background worker
thread), answers `initialize`, performs `shutdown` (closing a still-open
wizard window with a `ui/closeWindow` request first — a request the main
thread itself can never answer, so its 30 s wait always times out and is
swallowed), and answers anything else with a `-32601` error.  Any
exception escaping a handler is caught, logged and breaks the loop. -/

/-- The main-loop state of the wizard process: the `_next_id` counter, the
pending table, the `wizard_window_id` global (`null` for Python `None`)
and whether the HTTP server is up.  `spawned` records the
`command/execute` payloads handed to background worker threads (the
threads themselves run concurrently and are not part of the main loop). -/
structure WState where
  nextId : Int
  pending : Table
  window : JVal
  serverUp : Bool
  spawned : List JVal

/-- `handle_initialize` of the wizard (lines 617-677). -/
def wizInitResp (rid : Option JVal) : JVal :=
  .obj [("jsonrpc", .str "2.0"), ("id", jid rid),
    ("result", .obj
      [("name", .str "Patient Lookup Wizard"),
       ("version", .str "1.0.0"),
       ("description", .str "Look up patients and populate HL7 messages"),
       ("authors", .arr [.str "Example Author <author@example.com>"]),
       ("capabilities", .obj
         [("commands", .arr [.str "wizard/patientLookup"]),
          ("schemaProvider", .bool true)]),
       ("toolbarButtons", .arr
         [.obj [("id", .str "wizard-patient-lookup"),
                ("label", .str "Patient Lookup"),
                ("icon", .str "<svg viewBox=\"0 0 24 24\" fill=\"none\" stroke=\"currentColor\" stroke-width=\"2\" stroke-linecap=\"round\" stroke-linejoin=\"round\">\n                        <circle cx=\"11\" cy=\"11\" r=\"8\"/>\n                        <path d=\"M21 21l-4.35-4.35\"/>\n                        <circle cx=\"11\" cy=\"8\" r=\"2\"/>\n                        <path d=\"M11 10v2\"/>\n                        <path d=\"M8 14h6\"/>\n                    </svg>"),
                ("command", .str "wizard/patientLookup"),
                ("group", .str "wizards")]]),
       ("schema", .obj
         [("segments", .obj
           [("PID", .obj
             [("fields", .arr
               [.obj [("field", .num 3), ("component", .num 1),
                      ("note", .str "8-digit MRN from Patient Master Index")],
                .obj [("field", .num 3), ("component", .num 4),
                      ("template", .str "MRN")],
                .obj [("field", .num 8),
                      ("note", .str "Administrative sex"),
                      ("values", .obj
                        [("M", .str "Male"), ("F", .str "Female"),
                         ("O", .str "Other"), ("U", .str "Unknown")])]])])])])])]

/-- The wizard's `handle_shutdown` response (lines 781-785). -/
def wizShutdownResp (rid : Option JVal) : JVal :=
  .obj [("jsonrpc", .str "2.0"), ("id", jid rid),
        ("result", .obj [("success", .bool true)])]

/-- The wizard's method-not-found error (lines 811-818; unlike the other
two variants it carries no `data` field). -/
def wizErr32601 (rid : Option JVal) : JVal :=
  .obj [("jsonrpc", .str "2.0"), ("id", jid rid),
        ("error", .obj [("code", .num (-32601)),
                        ("message", .str "Method not found")])]

/-- `close_wizard_window` on the main thread (lines 601-610): when a
window id is stored, a `ui/closeWindow` request is written under the
message lock.  The main thread is the only reader, so nothing can set the
registered event; the 30 s wait expires, the entry is popped again and the
`TimeoutError` is caught and logged.  Net effect: one request written,
the counter advanced, the window id cleared. -/
def closeWizardWindow (st : WState) : WState × List JVal :=
  if pyTruthy st.window then
    let rid := (allocId st.nextId).1
    let t1 := tinsert st.pending rid .waiting
    let t2 := (sendRequestFinish t1 rid).table
    ({ st with nextId := (allocId st.nextId).2, pending := t2,
               window := .null },
     [mkRequest rid "ui/closeWindow" (.obj [("windowId", st.window)])])
  else (st, [])

/-- `handle_shutdown` of the wizard (lines 776-785): close the window,
stop the HTTP server, return the success response (which `handle_message`
writes before `sys.exit(0)`). -/
def wizShutdown (st : WState) (rid : Option JVal) : List JVal :=
  let (st1, ws) := closeWizardWindow st
  let _ := { st1 with serverUp := false }
  ws ++ [wizShutdownResp rid]

/-- Result of one main-loop iteration: continue with new state and writes,
exit via `sys.exit(0)` after a `shutdown`, or break out of the loop on a
caught exception. -/
inductive WStep where
  | cont (st : WState) (ws : List JVal)
  | exitShutdown (ws : List JVal)
  | crashed (ws : List JVal)

/-- One iteration of the wizard main loop body (lines 828-848) on an
already-decoded message. -/
def wizardStep (st : WState) (m : JVal) : WStep :=
  if isRespMsg m then
    let h := handle_response st.pending m
    if h.crashed then .crashed []
    else .cont { st with pending := h.table } []
  else
    let rid := m.pyGet "id"
    match rid with
    | none =>
      if methodIs m "command/execute" then
        .cont { st with spawned := st.spawned ++ [m.getD "params" (.obj [])] } []
      else .cont st []
    | some _ =>
      if methodIs m "initialize" then .cont st [wizInitResp rid]
      else if methodIs m "shutdown" then .exitShutdown (wizShutdown st rid)
      else .cont st [wizErr32601 rid]

/-- The writes of one main-loop iteration. -/
def wizardStepWrites (st : WState) (m : JVal) : List JVal :=
  match wizardStep st m with
  | .cont _ ws => ws
  | .exitShutdown ws => ws
  | .crashed ws => ws

/-- The writes of a main-loop iteration that continued the loop (`none`
when the iteration exited or crashed instead). -/
def contWrites : WStep → Option (List JVal)
  | .cont _ ws => some ws
  | _ => none

/-- How the wizard main loop ends. -/
inductive WEnd where
  | eosExit
  | shutdownExit
  | crashExit

/-- The wizard main loop over a list of inbound messages: the writes, the
way it ended, and the unconsumed remainder of the stream.  Reaching the
end of the stream or catching an exception breaks the loop and runs the
cleanup at the bottom of `main` (lines 851-852), which may write a final
`ui/closeWindow`; `sys.exit(0)` inside `handle_message` skips that
cleanup. -/
def wizardRun (st : WState) : List JVal → List JVal × WEnd × List JVal
  | [] => ((closeWizardWindow st).2, .eosExit, [])
  | m :: rest =>
    match wizardStep st m with
    | .cont st' ws =>
      let (w2, e, lo) := wizardRun st' rest
      (ws ++ w2, e, lo)
    | .exitShutdown ws => (ws, .shutdownExit, rest)
    | .crashed ws => (ws ++ (closeWizardWindow st).2, .crashExit, rest)

/-- Running a prefix of the main loop that neither exits nor crashes:
the state and writes after it, `none` if some step halts. -/
def wizardSteps (st : WState) : List JVal → Option (WState × List JVal)
  | [] => some (st, [])
  | m :: rest =>
    match wizardStep st m with
    | .cont st' ws =>
      match wizardSteps st' rest with
      | some (st'', ws') => some (st'', ws ++ ws')
      | none => none
    | _ => none

/-- A `shutdown` request frame from the host. -/
def shutdownMsg (i : Int) : JVal :=
  .obj [("jsonrpc", .str "2.0"), ("id", .num i), ("method", .str "shutdown"),
        ("params", .obj [])]

/-- An `initialize` request frame from the host. -/
def initMsg (i : Int) : JVal :=
  .obj [("jsonrpc", .str "2.0"), ("id", .num i),
        ("method", .str "initialize"),
        ("params", .obj [("hermesVersion", .str "1.0")])]

/-- Whether a written message is a Response carrying the numeric id `i`. -/
def isRespWithId (i : Int) (w : JVal) : Bool :=
  isRespMsg w && idMatches (w.pyGet "id") i

/-- Whether an inbound message carries the numeric id `i`. -/
def hasId (m : JVal) (i : Int) : Bool :=
  idMatches (m.pyGet "id") i

/-! ## Minimal extension: router and reentrant send loop

`minimal.py` is single-threaded: `send_request` writes the request and
then reads messages itself, storing responses for other ids in `_pending`
and dispatching inbound work through `handle_request`, whose
`minimal/setPatient` command re-enters `send_request`.  The mutual
recursion is fuel-indexed; `main` likewise.  Crucially, neither `main`
nor `handle_request` ever tests for a `result`/`error` key or for a
missing id — every message that reaches `handle_request` is routed by its
`method` field alone. -/

/-- Interpreter state of the minimal (and dialog) extensions: the
`_next_id` counter and `_pending`, a dict keyed by whatever
`msg.get("id")` returned (it is written but never read back). -/
structure RpcSt where
  nextId : Int
  pending : List (Option JVal × JVal)

/-- The initial state (`_next_id = 1`, `_pending = {}`). -/
def rpcInit : RpcSt :=
  ⟨1, []⟩

/-- Result of an interpreter fragment: normal return with the new state,
remaining input and messages written; process exit via `sys.exit(0)`; an
escaped exception; or exhausted fuel. -/
inductive RpcRes (α : Type) where
  | ok (a : α) (st : RpcSt) (input : List JVal) (writes : List JVal)
  | exited (writes : List JVal)
  | raised (writes : List JVal)
  | fuelOut (writes : List JVal)

/-- The messages written during a fragment, whatever its outcome. -/
def RpcRes.writes : RpcRes α → List JVal
  | .ok _ _ _ ws => ws
  | .exited ws => ws
  | .raised ws => ws
  | .fuelOut ws => ws

/-- Prepend writes that happened before a fragment. -/
def RpcRes.addW (ws0 : List JVal) : RpcRes α → RpcRes α
  | .ok a st inp ws => .ok a st inp (ws0 ++ ws)
  | .exited ws => .exited (ws0 ++ ws)
  | .raised ws => .raised (ws0 ++ ws)
  | .fuelOut ws => .fuelOut (ws0 ++ ws)

/-- `handle_initialize` of minimal.py (lines 102-130). -/
def minInitResp (rid : Option JVal) : JVal :=
  .obj [("jsonrpc", .str "2.0"), ("id", jid rid),
    ("result", .obj
      [("name", .str "Minimal Extension"),
       ("version", .str "1.0.0"),
       ("description", .str "A minimal example extension"),
       ("capabilities", .obj [("commands", .arr [.str "minimal/setPatient"])]),
       ("toolbarButtons", .arr
         [.obj [("id", .str "minimal-set-patient"),
                ("label", .str "Set Sample Patient"),
                ("icon", .str "<svg viewBox=\"0 0 24 24\" fill=\"none\" stroke=\"currentColor\" stroke-width=\"2\" stroke-linecap=\"round\" stroke-linejoin=\"round\">\n                        <path d=\"M20 21v-2a4 4 0 0 0-4-4H8a4 4 0 0 0-4 4v2\"/>\n                        <circle cx=\"12\" cy=\"7\" r=\"4\"/>\n                    </svg>"),
                ("command", .str "minimal/setPatient")]])])]

/-- `handle_shutdown` of minimal.py (lines 206-209). -/
def minShutdownResp (rid : Option JVal) : JVal :=
  .obj [("jsonrpc", .str "2.0"), ("id", jid rid),
        ("result", .obj [("success", .bool true)])]

/-- The method-not-found error of minimal.py (lines 227-235), including
the `data` field interpolating the (possibly absent) method. -/
def minErr32601 (rid : Option JVal) (method : Option JVal) : JVal :=
  .obj [("jsonrpc", .str "2.0"), ("id", jid rid),
        ("error", .obj [("code", .num (-32601)),
                        ("message", .str "Method not found"),
                        ("data", .str ("Unknown method: " ++ showJO method))])]

/-- The command-not-found error of minimal.py (lines 141-149). -/
def minErr32009 (rid : Option JVal) (cmd : Option JVal) : JVal :=
  .obj [("jsonrpc", .str "2.0"), ("id", jid rid),
        ("error", .obj [("code", .num (-32009)),
                        ("message", .str "Command not found"),
                        ("data", .str ("Unknown command: " ++ showJO cmd))])]

/-- The `editor/patchMessage` params of `handle_set_patient`
(lines 156-170). -/
def minPatchParams : JVal :=
  .obj [("patches", .arr
    [.obj [("path", .str "PID.5.1"), ("value", .str "DOE")],
     .obj [("path", .str "PID.5.2"), ("value", .str "JOHN")]])]

/-- The reply of `handle_set_patient` when the patch response carries an
`error` object (lines 172-182). -/
def minPatchErrReply (rid : Option JVal) (resp : JVal) : JVal :=
  .obj [("jsonrpc", .str "2.0"), ("id", jid rid),
    ("result", .obj [("success", .bool false),
      ("message", .str ("Failed to patch message: "
                        ++ showJ ((resp.idx "error").idx "message")))])]

/-- The reply of `handle_set_patient` when the patch result is not a
success (lines 184-194). -/
def minPatchFailReply (rid : Option JVal) (resp : JVal) : JVal :=
  let errors := (resp.getD "result" (.obj [])).getD "errors" (.arr [])
  let errMsg :=
    match errors with
    | .arr (e :: _) => showJ (e.idx "message")
    | _ => "Unknown error"
  .obj [("jsonrpc", .str "2.0"), ("id", jid rid),
    ("result", .obj [("success", .bool false),
      ("message", .str ("Patch failed: " ++ errMsg))])]

/-- The success reply of `handle_set_patient` (lines 196-203). -/
def minPatchOkReply (rid : Option JVal) : JVal :=
  .obj [("jsonrpc", .str "2.0"), ("id", jid rid),
    ("result", .obj [("success", .bool true),
      ("message", .str "Patient name set to DOE^JOHN")])]

mutual

/-- `send_request` of minimal.py (lines 61-94): allocate the id, write the
request, then read until the matching response arrives. -/
def minSend (fuel : Nat) (st : RpcSt) (input : List JVal) (method : String)
    (params : JVal) : RpcRes JVal :=
  match fuel with
  | 0 => .fuelOut []
  | fuel + 1 =>
    let rid := (allocId st.nextId).1
    let st1 : RpcSt := { st with nextId := (allocId st.nextId).2 }
    (minSendLoop fuel st1 input rid).addW [mkRequest rid method params]

/-- The read loop inside minimal.py's `send_request` (lines 76-93): a
matching response returns, any other response is stored in `_pending`, and
a non-response is dispatched through `handle_request`, whose reply (all of
its branches return a non-empty dict) is written.  End of stream raises
`Exception("Connection closed")`. -/
def minSendLoop (fuel : Nat) (st : RpcSt) (input : List JVal) (rid : Int) :
    RpcRes JVal :=
  match fuel with
  | 0 => .fuelOut []
  | fuel + 1 =>
    match input with
    | [] => .raised []
    | m :: rest =>
      if isRespMsg m then
        if idMatches (m.pyGet "id") rid then .ok m st rest []
        else
          minSendLoop fuel
            { st with pending := (m.pyGet "id", m) :: st.pending } rest rid
      else
        match minHandle fuel st rest m with
        | .ok r st' inp' ws =>
          let ws2 :=
            match r with
            | some resp => if pyTruthy resp then ws ++ [resp] else ws
            | none => ws
          (minSendLoop fuel st' inp' rid).addW ws2
        | .exited ws => .exited ws
        | .raised ws => .raised ws
        | .fuelOut ws => .fuelOut ws

/-- `handle_request` of minimal.py (lines 212-235): routing is by `method`
only — there is no check for a `result`/`error` key and none for a
missing id. -/
def minHandle (fuel : Nat) (st : RpcSt) (input : List JVal) (m : JVal) :
    RpcRes (Option JVal) :=
  match fuel with
  | 0 => .fuelOut []
  | fuel + 1 =>
    let rid := m.pyGet "id"
    let params := m.getD "params" (.obj [])
    if methodIs m "initialize" then .ok (some (minInitResp rid)) st input []
    else if methodIs m "shutdown" then .exited [minShutdownResp rid]
    else if methodIs m "command/execute" then minCommand fuel st input rid params
    else .ok (some (minErr32601 rid (m.pyGet "method"))) st input []

/-- `handle_command` of minimal.py (lines 133-149). -/
def minCommand (fuel : Nat) (st : RpcSt) (input : List JVal)
    (rid : Option JVal) (params : JVal) : RpcRes (Option JVal) :=
  match fuel with
  | 0 => .fuelOut []
  | fuel + 1 =>
    if cmdIs params "minimal/setPatient" then minSetPatient fuel st input rid
    else .ok (some (minErr32009 rid (params.pyGet "command"))) st input []

/-- `handle_set_patient` of minimal.py (lines 152-203): re-enters
`send_request` and shapes its reply from the patch response. -/
def minSetPatient (fuel : Nat) (st : RpcSt) (input : List JVal)
    (rid : Option JVal) : RpcRes (Option JVal) :=
  match fuel with
  | 0 => .fuelOut []
  | fuel + 1 =>
    match minSend fuel st input "editor/patchMessage" minPatchParams with
    | .ok resp st' inp' ws =>
      let reply :=
        if resp.hasKey "error" then minPatchErrReply rid resp
        else if !pyTruthyO ((resp.getD "result" (.obj [])).pyGet "success") then
          minPatchFailReply rid resp
        else minPatchOkReply rid
      .ok (some reply) st' inp' ws
    | .exited ws => .exited ws
    | .raised ws => .raised ws
    | .fuelOut ws => .fuelOut ws

end

/-- How minimal.py's `main` ends. -/
inductive MEnd where
  | eosEnd
  | exitEnd
  | errEnd
  | fuelEnd

/-- `main` of minimal.py (lines 243-259): every decoded message — response
or not — goes straight to `handle_request`, and any truthy return value is
written back.  A caught exception logs and breaks.  (The unconsumed input
is not tracked past an exit, hence only the writes and the end kind are
returned.) -/
def minMain (fuel : Nat) (st : RpcSt) (input : List JVal) :
    List JVal × MEnd :=
  match fuel with
  | 0 => ([], .fuelEnd)
  | fuel + 1 =>
    match input with
    | [] => ([], .eosEnd)
    | m :: rest =>
      match minHandle fuel st rest m with
      | .ok r st' inp' ws =>
        let ws2 :=
          match r with
          | some resp => if pyTruthy resp then ws ++ [resp] else ws
          | none => ws
        let (w3, e) := minMain fuel st' inp'
        (ws2 ++ w3, e)
      | .exited ws => (ws, .exitEnd)
      | .raised ws => (ws, .errEnd)
      | .fuelOut ws => (ws, .fuelEnd)

/-! ## Dialog extension: router and command executor

`dialog-extension.py` shares minimal.py's single-threaded send loop but
its `handle_message` distinguishes notifications: a message without an id
never produces a reply, and `command/execute` runs `execute_load_patient`
synchronously (file dialogs, reading the chosen file, patching the
message).  The local file system is a parameter (`FileOracle`). -/

/-- Outcome of `open(path)` followed by `json.load` in
`execute_load_patient`. -/
inductive FileRes where
  | notFound
  | badJson (e : String)
  | ok (patient : JVal)

/-- The file system as seen through the two handled exceptions. -/
def FileOracle := String → FileRes

/-- `handle_initialize` of dialog-extension.py (lines 110-137). -/
def dlgInitResp (rid : Option JVal) : JVal :=
  .obj [("jsonrpc", .str "2.0"), ("id", jid rid),
    ("result", .obj
      [("name", .str "Dialog Extension"),
       ("version", .str "1.0.0"),
       ("description", .str "Load patient data from a JSON file"),
       ("capabilities", .obj [("commands", .arr [.str "dialog/loadPatient"])]),
       ("toolbarButtons", .arr
         [.obj [("id", .str "dialog-load-patient"),
                ("label", .str "Load Patient from File"),
                ("icon", .str "<svg viewBox=\"0 0 24 24\" fill=\"none\" stroke=\"currentColor\" stroke-width=\"2\" stroke-linecap=\"round\" stroke-linejoin=\"round\">\n                        <path d=\"M22 19a2 2 0 0 1-2 2H4a2 2 0 0 1-2-2V5a2 2 0 0 1 2-2h5l2 3h9a2 2 0 0 1 2 2z\"/>\n                        <line x1=\"12\" y1=\"11\" x2=\"12\" y2=\"17\"/>\n                        <line x1=\"9\" y1=\"14\" x2=\"15\" y2=\"14\"/>\n                    </svg>"),
                ("command", .str "dialog/loadPatient")]])])]

/-- `handle_shutdown` of dialog-extension.py (lines 232-239). -/
def dlgShutdownResp (rid : Option JVal) : JVal :=
  .obj [("jsonrpc", .str "2.0"), ("id", jid rid),
        ("result", .obj [("success", .bool true)])]

/-- The method-not-found error of dialog-extension.py (lines 264-272). -/
def dlgErr32601 (rid : Option JVal) (method : Option JVal) : JVal :=
  .obj [("jsonrpc", .str "2.0"), ("id", jid rid),
        ("error", .obj [("code", .num (-32601)),
                        ("message", .str "Method not found"),
                        ("data", .str ("Unknown method: " ++ showJO method))])]

/-- The `ui/openFile` params of `execute_load_patient` (lines 155-160). -/
def dlgOpenFileParams : JVal :=
  .obj [("title", .str "Select Patient File"),
        ("filters", .arr [.obj [("name", .str "JSON Files"),
                                ("extensions", .arr [.str "json"])]])]

/-- One optional patch entry. -/
def dlgPatch (p : JVal) (key path : String) : List JVal :=
  if p.hasKey key then [.obj [("path", .str path), ("value", p.idx key)]]
  else []

/-- The patches built from the loaded patient file (lines 189-200), in
source order. -/
def dlgPatches (p : JVal) : List JVal :=
  dlgPatch p "mrn" "PID.3.1" ++ dlgPatch p "lastName" "PID.5.1"
  ++ dlgPatch p "firstName" "PID.5.2" ++ dlgPatch p "dob" "PID.7"
  ++ dlgPatch p "sex" "PID.8"

/-- `f"{patient.get('firstName', '')} {patient.get('lastName', '')}".strip()`. -/
def dlgName (p : JVal) : String :=
  (pyStrip ((showJ (p.getD "firstName" (.str "")) ++ " "
             ++ showJ (p.getD "lastName" (.str ""))).data)).asString

/-- The params dict built by `show_message` (lines 96-103); all call sites
pass non-empty title and kind strings, and `if title:` / `if kind:` test
truthiness. -/
def dlgShowMessageParams (message title kind : String) : JVal :=
  .obj ([("message", .str message)]
        ++ (if title = "" then [] else [("title", .str title)])
        ++ (if kind = "" then [] else [("kind", .str kind)]))

mutual

/-- `send_request` of dialog-extension.py (lines 60-93), identical in
shape to minimal.py's but dispatching through `handle_message`. -/
def dlgSend (fuel : Nat) (orc : FileOracle) (st : RpcSt) (input : List JVal)
    (method : String) (params : JVal) : RpcRes JVal :=
  match fuel with
  | 0 => .fuelOut []
  | fuel + 1 =>
    let rid := (allocId st.nextId).1
    let st1 : RpcSt := { st with nextId := (allocId st.nextId).2 }
    (dlgSendLoop fuel orc st1 input rid).addW [mkRequest rid method params]

/-- The read loop of the dialog `send_request`. -/
def dlgSendLoop (fuel : Nat) (orc : FileOracle) (st : RpcSt)
    (input : List JVal) (rid : Int) : RpcRes JVal :=
  match fuel with
  | 0 => .fuelOut []
  | fuel + 1 =>
    match input with
    | [] => .raised []
    | m :: rest =>
      if isRespMsg m then
        if idMatches (m.pyGet "id") rid then .ok m st rest []
        else
          dlgSendLoop fuel orc
            { st with pending := (m.pyGet "id", m) :: st.pending } rest rid
      else
        match dlgHandle fuel orc st rest m with
        | .ok r st' inp' ws =>
          let ws2 :=
            match r with
            | some resp => if pyTruthy resp then ws ++ [resp] else ws
            | none => ws
          (dlgSendLoop fuel orc st' inp' rid).addW ws2
        | .exited ws => .exited ws
        | .raised ws => .raised ws
        | .fuelOut ws => .fuelOut ws

/-- `handle_message` of dialog-extension.py (lines 242-272): an id-less
message is a notification and returns `None`; requests are answered by
method. -/
def dlgHandle (fuel : Nat) (orc : FileOracle) (st : RpcSt)
    (input : List JVal) (m : JVal) : RpcRes (Option JVal) :=
  match fuel with
  | 0 => .fuelOut []
  | fuel + 1 =>
    let rid := m.pyGet "id"
    match rid with
    | none =>
      if methodIs m "command/execute" then
        match dlgCommand fuel orc st input (m.getD "params" (.obj [])) with
        | .ok _ st' inp' ws => .ok none st' inp' ws
        | .exited ws => .exited ws
        | .raised ws => .raised ws
        | .fuelOut ws => .fuelOut ws
      else .ok none st input []
    | some _ =>
      if methodIs m "initialize" then .ok (some (dlgInitResp rid)) st input []
      else if methodIs m "shutdown" then .exited [dlgShutdownResp rid]
      else .ok (some (dlgErr32601 rid (m.pyGet "method"))) st input []

/-- `handle_command` of dialog-extension.py (lines 140-149). -/
def dlgCommand (fuel : Nat) (orc : FileOracle) (st : RpcSt)
    (input : List JVal) (params : JVal) : RpcRes Unit :=
  match fuel with
  | 0 => .fuelOut []
  | fuel + 1 =>
    if cmdIs params "dialog/loadPatient" then dlgLoadPatient fuel orc st input
    else .ok () st input []

/-- `execute_load_patient` (lines 152-229). -/
def dlgLoadPatient (fuel : Nat) (orc : FileOracle) (st : RpcSt)
    (input : List JVal) : RpcRes Unit :=
  match fuel with
  | 0 => .fuelOut []
  | fuel + 1 =>
    match dlgSend fuel orc st input "ui/openFile" dlgOpenFileParams with
    | .ok resp st' inp' ws =>
      if resp.hasKey "error" then .ok () st' inp' ws
      else
        match (resp.getD "result" (.obj [])).pyGet "path" with
        | none => .ok () st' inp' ws
        | some pv =>
          let path := jStr pv
          match orc path with
          | .notFound =>
            (dlgShowMessage fuel orc st' inp'
              ("File not found:\n" ++ path) "Load Failed" "error").addW ws
          | .badJson e =>
            (dlgShowMessage fuel orc st' inp'
              ("Invalid JSON format:\n" ++ e) "Load Failed" "error").addW ws
          | .ok patient =>
            let patches := dlgPatches patient
            if patches.isEmpty then
              (dlgShowMessage fuel orc st' inp'
                "No patient data found in file." "Load Failed" "error").addW ws
            else
              match dlgSend fuel orc st' inp' "editor/patchMessage"
                      (.obj [("patches", .arr patches)]) with
              | .ok resp2 st2 inp2 ws2 =>
                if resp2.hasKey "error" then
                  (dlgShowMessage fuel orc st2 inp2
                    ("Failed to update message:\n"
                     ++ showJ ((resp2.idx "error").idx "message"))
                    "Load Failed" "error").addW (ws ++ ws2)
                else if !pyTruthyO
                    ((resp2.getD "result" (.obj [])).pyGet "success") then
                  let errors :=
                    (resp2.getD "result" (.obj [])).getD "errors" (.arr [])
                  let errMsg :=
                    match errors with
                    | .arr (e :: _) => showJ (e.idx "message")
                    | _ => "Unknown error"
                  (dlgShowMessage fuel orc st2 inp2
                    ("Failed to update message:\n" ++ errMsg)
                    "Load Failed" "error").addW (ws ++ ws2)
                else
                  (dlgShowMessage fuel orc st2 inp2
                    ("Patient loaded: " ++ dlgName patient)
                    "Success" "info").addW (ws ++ ws2)
              | .exited ws2 => .exited (ws ++ ws2)
              | .raised ws2 => .raised (ws ++ ws2)
              | .fuelOut ws2 => .fuelOut (ws ++ ws2)
    | .exited ws => .exited ws
    | .raised ws => .raised ws
    | .fuelOut ws => .fuelOut ws

/-- `show_message` (lines 96-103): a fire-and-forget `ui/showMessage`
round trip whose response is discarded. -/
def dlgShowMessage (fuel : Nat) (orc : FileOracle) (st : RpcSt)
    (input : List JVal) (message title kind : String) : RpcRes Unit :=
  match fuel with
  | 0 => .fuelOut []
  | fuel + 1 =>
    match dlgSend fuel orc st input "ui/showMessage"
            (dlgShowMessageParams message title kind) with
    | .ok _ st' inp' ws => .ok () st' inp' ws
    | .exited ws => .exited ws
    | .raised ws => .raised ws
    | .fuelOut ws => .fuelOut ws

end

/-! ## Predicates and concrete test data used by the theorems -/

/-- Every message in a write list is request- or notification-shaped —
none of them is a Response. -/
def noRespWrites (ws : List JVal) : Prop :=
  ∀ w ∈ ws, isRespMsg w = false

/-- No message of the inbound stream is a Request (each is a Response or
id-less). -/
def noReqInput (input : List JVal) : Prop :=
  ∀ m ∈ input, isReqMsg m = false

/-- Well-behavedness of an interpreter outcome while a notification is
being handled on a request-free stream: the value satisfies `P`, nothing
response-shaped was written, the remaining stream is still request-free,
and the process did not exit. -/
def ResOk (P : α → Prop) : RpcRes α → Prop
  | .ok a _ inp ws => P a ∧ noRespWrites ws ∧ noReqInput inp
  | .exited _ => False
  | .raised ws => noRespWrites ws
  | .fuelOut ws => noRespWrites ws

/-- The initial wizard main-loop state (`_next_id = 1`, empty `_pending`,
no window, no server). -/
def wizInit : WState :=
  ⟨1, [], .null, false, []⟩

/-- A success Response from the host with numeric id `i`
(`{"jsonrpc": "2.0", "id": i, "result": {"success": true}}`). -/
def okRespMsg (i : Int) : JVal :=
  .obj [("jsonrpc", .str "2.0"), ("id", .num i),
        ("result", .obj [("success", .bool true)])]

/-- An error Response from the host with numeric id `i`. -/
def errRespMsg (i : Int) : JVal :=
  .obj [("jsonrpc", .str "2.0"), ("id", .num i),
        ("error", .obj [("code", .num (-1)),
                        ("message", .str "boom")])]

/-- A host notification (`method` only, no id). -/
def notifMsg (method : String) : JVal :=
  .obj [("jsonrpc", .str "2.0"), ("method", .str method),
        ("params", .obj [])]

/-- Observable for the pending table: whether the response stored under
key `i` carries an `error` object (`none` when no response is stored). -/
def storedHasError (t : Table) (i : Int) : Option Bool :=
  match tlookup t i with
  | some (.resolved v) => some (v.hasKey "error")
  | _ => none

/-- The `action` string of a stored Interaction Result. -/
def actionOf (r : Option JVal) : Option String :=
  r.map (fun v => jStr (v.idx "action"))

/-- A browser `POST /api/apply` for the first sample patient. -/
def applyPost : String × JVal :=
  ("/api/apply", .obj [("mrn", .str "12345678")])

/-- A browser `POST /api/cancel`. -/
def cancelPost : String × JVal :=
  ("/api/cancel", .obj [])

/-! ## Pending-table lemmas -/

theorem tlookup_nil (j : Int) : tlookup [] j = none := rfl

theorem tlookup_terase_ne (t : Table) (k j : Int) (h : j ≠ k) :
    tlookup (terase t k) j = tlookup t j := by
  induction t with
  | nil => rfl
  | cons p t ih =>
    obtain ⟨a, e⟩ := p
    by_cases hk : a = k
    · subst hk
      have h1 : (j == a) = false := by
        simp only [beq_eq_false_iff_ne, ne_eq]
        omega
      have h2 : (a == a) = true := by simp
      simp only [terase, tlookup, List.filter, h2, Bool.not_true] at *
      simp only [List.lookup, h1] at *
      exact ih
    · have h2 : (a == k) = false := by
        simp only [beq_eq_false_iff_ne, ne_eq]
        exact hk
      simp only [terase, tlookup, List.filter, h2, Bool.not_false,
                 List.lookup] at *
      by_cases hj : j = a
      · have h3 : (j == a) = true := by simp [hj]
        simp only [h3]
      · have h3 : (j == a) = false := by
          simp only [beq_eq_false_iff_ne, ne_eq]
          exact hj
        simp only [h3]
        exact ih

theorem tlookup_terase_self (t : Table) (k : Int) :
    tlookup (terase t k) k = none := by
  induction t with
  | nil => rfl
  | cons p t ih =>
    obtain ⟨a, e⟩ := p
    by_cases hk : a = k
    · subst hk
      have h2 : (a == a) = true := by simp
      simp only [terase, tlookup, List.filter, h2, Bool.not_true] at *
      exact ih
    · have h2 : (a == k) = false := by
        simp only [beq_eq_false_iff_ne, ne_eq]
        exact hk
      have h3 : (k == a) = false := by
        simp only [beq_eq_false_iff_ne, ne_eq]
        omega
      simp only [terase, tlookup, List.filter, h2, Bool.not_false,
                 List.lookup, h3] at *
      exact ih

theorem tlookup_tinsert_self (t : Table) (k : Int) (e : PEntry) :
    tlookup (tinsert t k e) k = some e := by
  have h2 : (k == k) = true := by simp
  simp only [tinsert, tlookup, List.lookup, h2]

theorem tlookup_tinsert_ne (t : Table) (k j : Int) (e : PEntry) (h : j ≠ k) :
    tlookup (tinsert t k e) j = tlookup t j := by
  have h2 : (j == k) = false := by
    simp only [beq_eq_false_iff_ne, ne_eq]
    exact h
  simp only [tinsert, tlookup, List.lookup, h2]
  exact tlookup_terase_ne t k j h

/-! ## Correlation-engine theorems (claims C2, C3) -/

theorem handle_response_preserves (t : Table) (m : JVal) (i : Int)
    (h : idKeyOf m ≠ some i) :
    tlookup (handle_response t m).table i = tlookup t i := by
  unfold handle_response
  cases hk : idKeyOf m with
  | none => rfl
  | some j =>
    have hji : i ≠ j := by
      rintro rfl
      exact h hk
    dsimp only
    cases hl : tlookup t j with
    | none => rfl
    | some e =>
      cases e with
      | waiting =>
        exact tlookup_tinsert_ne t j i (.resolved m) hji
      | resolved m0 =>
        exact tlookup_tinsert_ne t j i (.resolved m) hji

theorem applyResponses_preserves (ms : List JVal) (t : Table) (i : Int)
    (h : ∀ m ∈ ms, idKeyOf m ≠ some i) :
    tlookup (applyResponses t ms) i = tlookup t i := by
  induction ms generalizing t with
  | nil => rfl
  | cons m ms ih =>
    show tlookup (applyResponses (handle_response t m).table ms) i = _
    rw [ih _ (fun x hx => h x (List.mem_cons_of_mem _ hx))]
    exact handle_response_preserves t m i (h m (List.mem_cons_self _ _))

/-- C2 (amended): a Response for an id that is no longer in the pending
table is a true no-op; but a duplicate Response for an id whose entry
already holds the first, not-yet-consumed Response is not: it replaces
the stored response with the duplicate and then raises `AttributeError`
(`.set()` on a dict), which the main loop catches by breaking out of the
read loop.  In both cases no event is signalled and every other entry is
untouched. -/
theorem c2_duplicate_response (t : Table) (i : Int) (m m0 : JVal)
    (hid : idKeyOf m = some i) :
    (tlookup t i = none → handle_response t m = ⟨t, false, false⟩)
    ∧ (tlookup t i = some (.resolved m0) →
        (handle_response t m).crashed = true
        ∧ (handle_response t m).signaled = false
        ∧ tlookup (handle_response t m).table i = some (.resolved m)
        ∧ ∀ j, j ≠ i → tlookup (handle_response t m).table j = tlookup t j) := by
  constructor
  · intro h0
    simp only [handle_response, hid, h0]
  · intro h0
    simp only [handle_response, hid, h0]
    refine ⟨trivial, trivial, ?_, ?_⟩
    · exact tlookup_tinsert_self t i (.resolved m)
    · intro j hj
      exact tlookup_tinsert_ne t i j (.resolved m) hj

/-- C2 counterexample: with id 1 already resolved to a success Response
but not yet consumed by its waiter, a duplicate error Response for id 1
crashes `handle_response` (AttributeError on `.set()`) and replaces the
stored result — refuting "is a no-op: it does not change the stored
result ... does not crash the read loop". -/
theorem c2_counterexample :
    (handle_response [(1, PEntry.resolved (okRespMsg 1)), (2, PEntry.waiting)]
       (errRespMsg 1)).crashed = true
    ∧ storedHasError
        [(1, PEntry.resolved (okRespMsg 1)), (2, PEntry.waiting)] 1
        = some false
    ∧ storedHasError
        (handle_response
          [(1, PEntry.resolved (okRespMsg 1)), (2, PEntry.waiting)]
          (errRespMsg 1)).table 1
        = some true := by
  refine ⟨?_, ?_, ?_⟩ <;> rfl

theorem c2_witness :
    (handle_response [(3, PEntry.waiting)] (okRespMsg 1)
       = ⟨[(3, PEntry.waiting)], false, false⟩)
    ∧ ((handle_response [(1, PEntry.resolved (okRespMsg 1)), (2, PEntry.waiting)]
          (errRespMsg 1)).crashed = true
       ∧ (handle_response [(1, PEntry.resolved (okRespMsg 1)), (2, PEntry.waiting)]
            (errRespMsg 1)).signaled = false
       ∧ tlookup (handle_response
            [(1, PEntry.resolved (okRespMsg 1)), (2, PEntry.waiting)]
            (errRespMsg 1)).table 1 = some (.resolved (errRespMsg 1))
       ∧ ∀ j, j ≠ 1 → tlookup (handle_response
            [(1, PEntry.resolved (okRespMsg 1)), (2, PEntry.waiting)]
            (errRespMsg 1)).table j
          = tlookup [(1, PEntry.resolved (okRespMsg 1)), (2, PEntry.waiting)] j) :=
  ⟨(c2_duplicate_response [(3, PEntry.waiting)] 1 (okRespMsg 1) (okRespMsg 1)
      (by decide)).1 (by rfl),
   (c2_duplicate_response
      [(1, PEntry.resolved (okRespMsg 1)), (2, PEntry.waiting)] 1
      (errRespMsg 1) (okRespMsg 1) (by decide)).2 (by rfl)⟩

/-- C3: a `send_request` whose wait expires with the entry still
unresolved (no Response with its id was delivered — handling any number
of Responses for other ids keeps the entry in the waiting state) fails
with `TimeoutError`, removes the entry and leaves every other entry
untouched; a late Response for that id is then discarded with no effect
on the table, no signal and no crash. -/
theorem c3_timeout (t : Table) (i : Int) (ms : List JVal) (late : JVal)
    (hwait : tlookup t i = some PEntry.waiting)
    (hms : ∀ m ∈ ms, idKeyOf m ≠ some i)
    (hlate : idKeyOf late = some i) :
    tlookup (applyResponses t ms) i = some PEntry.waiting
    ∧ (sendRequestFinish (applyResponses t ms) i).outcome
        = SendOutcome.timeoutErr
    ∧ tlookup (sendRequestFinish (applyResponses t ms) i).table i = none
    ∧ (∀ j, j ≠ i →
        tlookup (sendRequestFinish (applyResponses t ms) i).table j
          = tlookup (applyResponses t ms) j)
    ∧ handle_response (sendRequestFinish (applyResponses t ms) i).table late
        = ⟨(sendRequestFinish (applyResponses t ms) i).table, false, false⟩ := by
  have h1 : tlookup (applyResponses t ms) i = some PEntry.waiting := by
    rw [applyResponses_preserves ms t i hms]
    exact hwait
  have hfin : sendRequestFinish (applyResponses t ms) i
      = ⟨.timeoutErr, terase (applyResponses t ms) i⟩ := by
    unfold sendRequestFinish
    rw [h1]
  refine ⟨h1, by rw [hfin], ?_, ?_, ?_⟩
  · rw [hfin]
    exact tlookup_terase_self _ i
  · intro j hj
    rw [hfin]
    exact tlookup_terase_ne _ i j hj
  · rw [hfin]
    simp only [handle_response, hlate, tlookup_terase_self]

theorem c3_witness :
    tlookup (applyResponses [(1, PEntry.waiting), (2, PEntry.waiting)]
      [okRespMsg 2]) 1 = some PEntry.waiting
    ∧ (sendRequestFinish (applyResponses
        [(1, PEntry.waiting), (2, PEntry.waiting)] [okRespMsg 2]) 1).outcome
        = SendOutcome.timeoutErr
    ∧ tlookup (sendRequestFinish (applyResponses
        [(1, PEntry.waiting), (2, PEntry.waiting)] [okRespMsg 2]) 1).table 1
        = none
    ∧ (∀ j, j ≠ 1 →
        tlookup (sendRequestFinish (applyResponses
          [(1, PEntry.waiting), (2, PEntry.waiting)] [okRespMsg 2]) 1).table j
          = tlookup (applyResponses
              [(1, PEntry.waiting), (2, PEntry.waiting)] [okRespMsg 2]) j)
    ∧ handle_response (sendRequestFinish (applyResponses
        [(1, PEntry.waiting), (2, PEntry.waiting)] [okRespMsg 2]) 1).table
        (okRespMsg 1)
        = ⟨(sendRequestFinish (applyResponses
            [(1, PEntry.waiting), (2, PEntry.waiting)] [okRespMsg 2]) 1).table,
           false, false⟩ :=
  c3_timeout [(1, PEntry.waiting), (2, PEntry.waiting)] 1 [okRespMsg 2]
    (okRespMsg 1) (by rfl)
    (by
      intro m hm
      rw [List.mem_singleton] at hm
      subst hm
      decide)
    (by decide)

/-! ## Id allocation (claim C7) -/

theorem idSeq_mem_le : ∀ (k : Nat) (n m : Int), m ∈ idSeq n k → n ≤ m := by
  intro k
  induction k with
  | zero =>
    intro n m hm
    simp [idSeq] at hm
  | succ k ih =>
    intro n m hm
    simp only [idSeq, allocId] at hm
    rcases List.mem_cons.mp hm with h | h
    · omega
    · have := ih (n + 1) m h
      omega

theorem idSeq_pairwise : ∀ (k : Nat) (n : Int),
    List.Pairwise (· < ·) (idSeq n k) := by
  intro k
  induction k with
  | zero =>
    intro n
    simp [idSeq]
  | succ k ih =>
    intro n
    simp only [idSeq, allocId]
    refine List.Pairwise.cons ?_ (ih (n + 1))
    intro m hm
    have := idSeq_mem_le k (n + 1) m hm
    omega

/-- C7: successive `request_id = _next_id; _next_id += 1` allocations
(each atomic — in the wizard the two statements run under
`_message_lock`, so any interleaving of concurrent senders is some
serialisation of `allocId` steps) issue a strictly increasing and
therefore repeat-free sequence of request ids, from any starting counter
value. -/
theorem c7_ids_increasing (n : Int) (k : Nat) :
    List.Pairwise (· < ·) (idSeq n k) ∧ (idSeq n k).Nodup :=
  ⟨idSeq_pairwise k n,
   List.Pairwise.imp (fun h => ne_of_lt h) (idSeq_pairwise k n)⟩

/-! ## UI bridge theorems (claim C8) -/

theorem getLast?_cons_eq : ∀ (l : List α) (a : α),
    (a :: l).getLast? = match l.getLast? with
      | some x => some x
      | none => some a := by
  intro l
  induction l with
  | nil =>
    intro a
    rfl
  | cons b l ih =>
    intro a
    rw [List.getLast?_cons_cons, ih b]
    cases hl : l.getLast? <;> rfl

theorem do_POST_effect (st : BridgeState) (p : String × JVal) :
    ((do_POST st p.1 p.2).1.result
       = match postEffect p with
         | some r => some r
         | none => st.result)
    ∧ ((do_POST st p.1 p.2).1.eventSet
       = (st.eventSet || (postEffect p).isSome)) := by
  obtain ⟨path, body⟩ := p
  by_cases h1 : path = "/api/search"
  · simp [do_POST, postEffect, h1]
  · by_cases h2 : path = "/api/apply"
    · cases hl : patientsList.lookup (jStr (body.getD "mrn" (.str ""))) with
      | some patient => simp [do_POST, postEffect, h1, h2, hl]
      | none => simp [do_POST, postEffect, h1, h2, hl]
    · by_cases h3 : path = "/api/cancel"
      · simp [do_POST, postEffect, h1, h2, h3]
      · simp [do_POST, postEffect, h1, h2, h3]

/-- C8 (amended): the Interaction Result the background worker observes
after a sequence of browser POSTs is the one stored by the *last*
effective action (an `/api/apply` naming a known MRN, or `/api/cancel`),
not the first — each such handler overwrites `wizard_result`
unconditionally; the one-shot event, however, is set idempotently: it is
set exactly when at least one effective action occurred, regardless of
how many. -/
theorem c8_last_write_wins (st : BridgeState) (ps : List (String × JVal)) :
    ((runPosts st ps).result
       = match (ps.filterMap postEffect).getLast? with
         | some r => some r
         | none => st.result)
    ∧ ((runPosts st ps).eventSet
       = (st.eventSet || !(ps.filterMap postEffect).isEmpty)) := by
  induction ps generalizing st with
  | nil =>
    simp [runPosts]
  | cons p ps ih =>
    have hstep := do_POST_effect st p
    have hrun : runPosts st (p :: ps) = runPosts (do_POST st p.1 p.2).1 ps := rfl
    rcases ih (do_POST st p.1 p.2).1 with ⟨ihr, ihe⟩
    constructor
    · rw [hrun, ihr, hstep.1, List.filterMap_cons]
      cases he : postEffect p with
      | none => rfl
      | some r =>
        rw [getLast?_cons_eq]
        cases hl : (ps.filterMap postEffect).getLast? <;> rfl
    · rw [hrun, ihe, hstep.2, List.filterMap_cons]
      cases he : postEffect p with
      | none => simp
      | some r => simp

/-- C8 counterexample: after `/api/apply` for MRN 12345678 followed by
`/api/cancel` (the race resolved in that order before the worker reads),
the worker observes the *cancel* result — the second caller's write
overwrote the first — refuting "only the first completed action
determines the result the worker observes". -/
theorem c8_counterexample :
    actionOf (runPosts bridgeCleared [applyPost]).result = some "apply"
    ∧ actionOf (runPosts bridgeCleared [applyPost, cancelPost]).result
        = some "cancel"
    ∧ (runPosts bridgeCleared [applyPost, cancelPost]).eventSet = true := by
  refine ⟨?_, ?_, ?_⟩ <;> rfl

/-! ## Frame codec reader: end-of-stream behaviour (claim C5) -/

/-- C5: `read_message` does return the end-of-stream marker when the
header section completes with a missing or zero `Content-Length` — but on
a stream that closes before the blank line its header loop never returns
at all: `readline` yields `""` forever, which is neither blank-line form,
so the `while True` spins (the `diverge` outcome), instead of returning
`None` as the specification states. -/
theorem c5_read_eof :
    read_message [] = ReadRes.diverge
    ∧ read_message ("Content-Le".data) = ReadRes.diverge
    ∧ read_message ("\x0d\n".data) = ReadRes.eos
    ∧ read_message ("Foo: bar\x0d\n\x0d\n".data) = ReadRes.eos
    ∧ read_message ("Content-Length: 0\x0d\n\x0d\nrest".data) = ReadRes.eos := by
  refine ⟨?_, ?_, ?_, ?_, ?_⟩ <;> rfl

/-! ## Response routing (claim C1) -/

theorem wizardStep_resp_writes (st : WState) (m : JVal)
    (h : isRespMsg m = true) : wizardStepWrites st m = [] := by
  simp only [wizardStepWrites, wizardStep, h]
  cases hc : (handle_response st.pending m).crashed <;> simp [hc]

/-- C1 (amended): in the wizard process every inbound Response goes to
`handle_response`, which writes nothing and touches at most the pending
entry whose id matches (resolving and signalling it when it is still
waiting, leaving all other entries as they were); likewise minimal.py's
in-flight `send_request` loop writes nothing while consuming Responses
(it returns the matching one and stores the others).  But in minimal.py's
*main* loop — and dialog-extension.py's — there is no Response check at
all, so a Response arriving with no `send_request` in flight is dispatched
as a Request and answered (see the counterexample). -/
theorem c1_response_handling :
    (∀ (st : WState) (m : JVal), isRespMsg m = true →
       wizardStepWrites st m = []
       ∧ (∀ j, idKeyOf m ≠ some j →
           tlookup (handle_response st.pending m).table j
             = tlookup st.pending j)
       ∧ (∀ i, idKeyOf m = some i →
           tlookup st.pending i = some PEntry.waiting →
           (handle_response st.pending m).signaled = true
           ∧ tlookup (handle_response st.pending m).table i
               = some (PEntry.resolved m)))
    ∧ (∀ (fuel : Nat) (st : RpcSt) (input : List JVal) (rid : Int),
        (∀ m ∈ input, isRespMsg m = true) →
        RpcRes.writes (minSendLoop fuel st input rid) = []) := by
  constructor
  · intro st m h
    refine ⟨wizardStep_resp_writes st m h, ?_, ?_⟩
    · intro j hj
      exact handle_response_preserves st.pending m j hj
    · intro i hid hwait
      simp only [handle_response, hid, hwait]
      exact ⟨trivial, tlookup_tinsert_self st.pending i (.resolved m)⟩
  · intro fuel
    induction fuel with
    | zero =>
      intro st input rid h
      rfl
    | succ fuel ih =>
      intro st input rid h
      cases input with
      | nil => rfl
      | cons m rest =>
        have hm : isRespMsg m = true := h m (List.mem_cons_self _ _)
        simp only [minSendLoop, hm]
        cases hmatch : idMatches (m.pyGet "id") rid with
        | true => simp [hmatch, RpcRes.writes]
        | false =>
          simp only [hmatch, Bool.false_eq_true, if_false]
          exact ih _ rest rid (fun x hx => h x (List.mem_cons_of_mem _ hx))

theorem c1_witness :
    wizardStepWrites wizInit (okRespMsg 1) = []
    ∧ RpcRes.writes (minSendLoop 5 rpcInit [okRespMsg 7] 3) = [] :=
  ⟨(c1_response_handling.1 wizInit (okRespMsg 1) (by rfl)).1,
   c1_response_handling.2 5 rpcInit [okRespMsg 7] 3 (by
     intro m hm
     rw [List.mem_singleton] at hm
     subst hm
     rfl)⟩

/-- C1 counterexample: minimal.py's main loop passes a success Response
(a message with a `result` key, no method) straight to `handle_request`,
which routes by method, finds none, and *writes* a
`-32601 Method not found` error reply carrying the Response's id — the
process treats the inbound Response as a Request and replies to it. -/
theorem c1_counterexample :
    isRespMsg (okRespMsg 5) = true
    ∧ (minMain 10 rpcInit [okRespMsg 5]).1
        = [minErr32601 (some (.num 5)) none]
    ∧ ((minErr32601 (some (.num 5)) none).idx "error").idx "code"
        = .num (-32601)
    ∧ (minErr32601 (some (.num 5)) none).pyGet "id" = some (.num 5) := by
  refine ⟨?_, ?_, ?_, ?_⟩ <;> rfl

/-! ## Notification routing (claim C4) -/

theorem noRespWrites_nil : noRespWrites [] :=
  fun w hw => absurd hw (List.not_mem_nil w)

theorem noRespWrites_append {a b : List JVal} (ha : noRespWrites a)
    (hb : noRespWrites b) : noRespWrites (a ++ b) := by
  intro w hw
  rcases List.mem_append.mp hw with h | h
  · exact ha w h
  · exact hb w h

theorem noRespWrites_req (rid : Int) (method : String) (params : JVal) :
    noRespWrites [mkRequest rid method params] := by
  intro w hw
  rw [List.mem_singleton] at hw
  subst hw
  rfl

theorem ResOk_addW {α : Type} {P : α → Prop} {r : RpcRes α} {ws0 : List JVal}
    (h : ResOk P r) (h0 : noRespWrites ws0) : ResOk P (r.addW ws0) := by
  cases r with
  | ok a st inp ws => exact ⟨h.1, noRespWrites_append h0 h.2.1, h.2.2⟩
  | exited ws => exact h
  | raised ws => exact noRespWrites_append h0 h
  | fuelOut ws => exact noRespWrites_append h0 h

theorem noReqInput_nil : noReqInput [] :=
  fun m hm => absurd hm (List.not_mem_nil m)

theorem noReqInput_tail {m : JVal} {rest : List JVal}
    (h : noReqInput (m :: rest)) : noReqInput rest :=
  fun x hx => h x (List.mem_cons_of_mem _ hx)

theorem id_none_of_not_req {m : JVal} (h1 : isReqMsg m = false)
    (h2 : isRespMsg m = false) : m.pyGet "id" = none := by
  unfold isReqMsg at h1
  rw [h2] at h1
  cases ho : m.pyGet "id" with
  | none => rfl
  | some v =>
    rw [ho] at h1
    simp at h1

theorem dlgSendLoop_succ_nil (fuel : Nat) (orc : FileOracle) (st : RpcSt)
    (rid : Int) : dlgSendLoop (fuel + 1) orc st [] rid = .raised [] := rfl

theorem dlgSendLoop_succ_cons (fuel : Nat) (orc : FileOracle) (st : RpcSt)
    (m : JVal) (rest : List JVal) (rid : Int) :
    dlgSendLoop (fuel + 1) orc st (m :: rest) rid =
      (if isRespMsg m then
        if idMatches (m.pyGet "id") rid then .ok m st rest []
        else
          dlgSendLoop fuel orc
            { st with pending := (m.pyGet "id", m) :: st.pending } rest rid
      else
        match dlgHandle fuel orc st rest m with
        | .ok r st' inp' ws =>
          let ws2 :=
            match r with
            | some resp => if pyTruthy resp then ws ++ [resp] else ws
            | none => ws
          (dlgSendLoop fuel orc st' inp' rid).addW ws2
        | .exited ws => .exited ws
        | .raised ws => .raised ws
        | .fuelOut ws => .fuelOut ws) := rfl

theorem dlgNotificationInvariant : ∀ fuel : Nat,
    (∀ (orc : FileOracle) (st : RpcSt) (input : List JVal) (method : String)
       (params : JVal), noReqInput input →
       ResOk (fun _ => True) (dlgSend fuel orc st input method params))
    ∧ (∀ (orc : FileOracle) (st : RpcSt) (input : List JVal) (rid : Int),
       noReqInput input →
       ResOk (fun _ => True) (dlgSendLoop fuel orc st input rid))
    ∧ (∀ (orc : FileOracle) (st : RpcSt) (input : List JVal) (m : JVal),
       noReqInput input → m.pyGet "id" = none →
       ResOk (fun v => v = none) (dlgHandle fuel orc st input m))
    ∧ (∀ (orc : FileOracle) (st : RpcSt) (input : List JVal) (params : JVal),
       noReqInput input →
       ResOk (fun _ => True) (dlgCommand fuel orc st input params))
    ∧ (∀ (orc : FileOracle) (st : RpcSt) (input : List JVal),
       noReqInput input →
       ResOk (fun _ => True) (dlgLoadPatient fuel orc st input))
    ∧ (∀ (orc : FileOracle) (st : RpcSt) (input : List JVal)
       (message title kind : String), noReqInput input →
       ResOk (fun _ => True) (dlgShowMessage fuel orc st input
         message title kind)) := by
  intro fuel
  induction fuel with
  | zero =>
    refine ⟨?_, ?_, ?_, ?_, ?_, ?_⟩ <;>
      intros <;> exact noRespWrites_nil
  | succ fuel ih =>
    obtain ⟨ihSend, ihLoop, ihHandle, ihCmd, ihLoad, ihShow⟩ := ih
    have hSend : ∀ (orc : FileOracle) (st : RpcSt) (input : List JVal)
        (method : String) (params : JVal), noReqInput input →
        ResOk (fun _ => True) (dlgSend (fuel + 1) orc st input method params) := by
      intro orc st input method params hin
      simp only [dlgSend]
      exact ResOk_addW (ihLoop orc _ input _ hin) (noRespWrites_req _ _ _)
    have hLoop : ∀ (orc : FileOracle) (st : RpcSt) (input : List JVal)
        (rid : Int), noReqInput input →
        ResOk (fun _ => True) (dlgSendLoop (fuel + 1) orc st input rid) := by
      intro orc st input rid hin
      cases input with
      | nil =>
        rw [dlgSendLoop_succ_nil]
        exact noRespWrites_nil
      | cons m rest =>
        have hm : isReqMsg m = false := hin m (List.mem_cons_self _ _)
        have hrest : noReqInput rest := noReqInput_tail hin
        rw [dlgSendLoop_succ_cons]
        split
        · split
          · exact ⟨trivial, noRespWrites_nil, hrest⟩
          · exact ihLoop orc _ rest rid hrest
        · rename_i hnr
          have hr : isRespMsg m = false := by
            revert hnr
            cases isRespMsg m <;> simp
          have hid : m.pyGet "id" = none := id_none_of_not_req hm hr
          have hh := ihHandle orc st rest m hrest hid
          split
          · rename_i r st' inp' ws heq
            rw [heq] at hh
            obtain ⟨hv, hws, hinp⟩ := hh
            subst hv
            exact ResOk_addW (ihLoop orc st' inp' rid hinp) hws
          · rename_i ws heq
            rw [heq] at hh
            exact absurd hh (by simp [ResOk])
          · rename_i ws heq
            rw [heq] at hh
            exact hh
          · rename_i ws heq
            rw [heq] at hh
            exact hh
    have hShow : ∀ (orc : FileOracle) (st : RpcSt) (input : List JVal)
        (message title kind : String), noReqInput input →
        ResOk (fun _ => True) (dlgShowMessage (fuel + 1) orc st input
          message title kind) := by
      intro orc st input message title kind hin
      simp only [dlgShowMessage]
      have hs := ihSend orc st input "ui/showMessage"
        (dlgShowMessageParams message title kind) hin
      split
      · rename_i r st' inp' ws heq
        rw [heq] at hs
        exact ⟨trivial, hs.2.1, hs.2.2⟩
      · rename_i ws heq
        rw [heq] at hs
        exact absurd hs (by simp [ResOk])
      · rename_i ws heq
        rw [heq] at hs
        exact hs
      · rename_i ws heq
        rw [heq] at hs
        exact hs
    have hLoad : ∀ (orc : FileOracle) (st : RpcSt) (input : List JVal),
        noReqInput input →
        ResOk (fun _ => True) (dlgLoadPatient (fuel + 1) orc st input) := by
      intro orc st input hin
      simp only [dlgLoadPatient]
      have h1 := ihSend orc st input "ui/openFile" dlgOpenFileParams hin
      split
      · rename_i resp st' inp' ws heq
        rw [heq] at h1
        obtain ⟨-, hws, hinp⟩ := h1
        split
        · exact ⟨trivial, hws, hinp⟩
        · split
          · exact ⟨trivial, hws, hinp⟩
          · rename_i pv hpv
            split
            · exact ResOk_addW (ihShow orc st' inp' _ _ _ hinp) hws
            · exact ResOk_addW (ihShow orc st' inp' _ _ _ hinp) hws
            · rename_i patient horc
              split
              · exact ResOk_addW (ihShow orc st' inp' _ _ _ hinp) hws
              · have h2 := ihSend orc st' inp' "editor/patchMessage"
                  (.obj [("patches", .arr (dlgPatches patient))]) hinp
                split
                · rename_i resp2 st2 inp2 ws2 heq2
                  rw [heq2] at h2
                  obtain ⟨-, hws2, hinp2⟩ := h2
                  have hws12 := noRespWrites_append hws hws2
                  split
                  · exact ResOk_addW (ihShow orc st2 inp2 _ _ _ hinp2) hws12
                  · split
                    · exact ResOk_addW (ihShow orc st2 inp2 _ _ _ hinp2) hws12
                    · exact ResOk_addW (ihShow orc st2 inp2 _ _ _ hinp2) hws12
                · rename_i ws2 heq2
                  rw [heq2] at h2
                  exact absurd h2 (by simp [ResOk])
                · rename_i ws2 heq2
                  rw [heq2] at h2
                  exact noRespWrites_append hws h2
                · rename_i ws2 heq2
                  rw [heq2] at h2
                  exact noRespWrites_append hws h2
      · rename_i ws heq
        rw [heq] at h1
        exact absurd h1 (by simp [ResOk])
      · rename_i ws heq
        rw [heq] at h1
        exact h1
      · rename_i ws heq
        rw [heq] at h1
        exact h1
    have hCmd : ∀ (orc : FileOracle) (st : RpcSt) (input : List JVal)
        (params : JVal), noReqInput input →
        ResOk (fun _ => True) (dlgCommand (fuel + 1) orc st input params) := by
      intro orc st input params hin
      simp only [dlgCommand]
      split
      · exact ihLoad orc st input hin
      · exact ⟨trivial, noRespWrites_nil, hin⟩
    have hHandle : ∀ (orc : FileOracle) (st : RpcSt) (input : List JVal)
        (m : JVal), noReqInput input → m.pyGet "id" = none →
        ResOk (fun v => v = none) (dlgHandle (fuel + 1) orc st input m) := by
      intro orc st input m hin hid
      simp only [dlgHandle, hid]
      split
      · have hc := ihCmd orc st input (m.getD "params" (.obj [])) hin
        split
        · rename_i r st' inp' ws heq
          rw [heq] at hc
          exact ⟨rfl, hc.2.1, hc.2.2⟩
        · rename_i ws heq
          rw [heq] at hc
          exact absurd hc (by simp [ResOk])
        · rename_i ws heq
          rw [heq] at hc
          exact hc
        · rename_i ws heq
          rw [heq] at hc
          exact hc
      · exact ⟨rfl, noRespWrites_nil, hin⟩
    exact ⟨hSend, hLoop, hHandle, hCmd, hLoad, hShow⟩

/-- C4 (amended): in the dialog (and wizard) extensions an inbound
message with no `id` is a notification: the router returns no reply, and
— as long as the stream consumed while handling it contains no inbound
Requests — nothing response-shaped is ever written (only outbound
Requests such as `ui/openFile`/`ui/showMessage`); unknown notification
methods are dropped without terminating the process.  In the minimal
extension, however, `handle_request` ignores the missing id and answers
notifications like requests (see the counterexample). -/
theorem c4_notifications :
    (∀ (fuel : Nat) (orc : FileOracle) (st : RpcSt) (input : List JVal)
       (m : JVal), noReqInput input → m.pyGet "id" = none →
       ResOk (fun v => v = none) (dlgHandle fuel orc st input m))
    ∧ (∀ (st : WState) (m : JVal), m.pyGet "id" = none →
       isRespMsg m = false →
       contWrites (wizardStep st m) = some []) := by
  constructor
  · intro fuel orc st input m hin hid
    exact (dlgNotificationInvariant fuel).2.2.1 orc st input m hin hid
  · intro st m hid hr
    simp only [wizardStep, hr, Bool.false_eq_true, if_false, hid]
    cases hcm : methodIs m "command/execute" with
    | true => simp [hcm, contWrites]
    | false => simp [hcm, contWrites]

theorem c4_witness :
    ResOk (fun v => v = none)
      (dlgHandle 5 (fun _ => FileRes.notFound) rpcInit []
        (notifMsg "message/saved"))
    ∧ contWrites (wizardStep wizInit (notifMsg "message/saved")) = some [] :=
  ⟨c4_notifications.1 5 (fun _ => FileRes.notFound) rpcInit []
     (notifMsg "message/saved") noReqInput_nil rfl,
   c4_notifications.2 wizInit (notifMsg "message/saved") rfl rfl⟩

/-- C4 counterexample: minimal.py's `handle_request` routes an id-less
notification with an unregistered method through its request path and
*writes* a `-32601` error Response (with `"id": null`) onto the stream —
refuting "a notification whose method is unknown is logged and silently
dropped ... without emitting any message". -/
theorem c4_counterexample :
    (notifMsg "message/opened").pyGet "id" = none
    ∧ (minMain 10 rpcInit [notifMsg "message/opened"]).1
        = [minErr32601 none (some (.str "message/opened"))]
    ∧ isRespMsg (minErr32601 none (some (.str "message/opened"))) = true
    ∧ (minErr32601 none (some (.str "message/opened"))).idx "id"
        = JVal.null := by
  refine ⟨?_, ?_, ?_, ?_⟩ <;> rfl

/-! ## Shutdown behaviour (claim C6) -/

theorem pyGet_ne_null {m : JVal} {k : String} {v : JVal}
    (h : m.pyGet k = some v) : v ≠ JVal.null := by
  intro hv
  subst hv
  cases m with
  | obj fields =>
    have h2 : (match List.lookup k fields with
        | some JVal.null => none
        | some x => some x
        | none => (none : Option JVal)) = some JVal.null := h
    cases hl : List.lookup k fields with
    | none =>
      rw [hl] at h2
      cases h2
    | some x =>
      rw [hl] at h2
      cases x with
      | null => cases h2
      | bool b => injection h2 with h3; cases h3
      | num n => injection h2 with h3; cases h3
      | str s => injection h2 with h3; cases h3
      | arr es => injection h2 with h3; cases h3
      | obj fs => injection h2 with h3; cases h3
  | null => exact Option.noConfusion h
  | bool b => exact Option.noConfusion h
  | num n => exact Option.noConfusion h
  | str s => exact Option.noConfusion h
  | arr es => exact Option.noConfusion h

theorem pyGet_id_field (v : JVal) (rest : List (String × JVal))
    (hv : v ≠ JVal.null) :
    (JVal.obj (("jsonrpc", JVal.str "2.0") :: ("id", v) :: rest)).pyGet "id"
      = some v := by
  cases v <;> first
    | rfl
    | exact absurd rfl hv

theorem wizardStep_cont_resp_id (st : WState) (m : JVal) (st' : WState)
    (ws : List JVal) (i : Int) (h : wizardStep st m = WStep.cont st' ws)
    (hm : hasId m i = false) :
    ∀ w ∈ ws, isRespWithId i w = false := by
  unfold wizardStep at h
  cases hr : isRespMsg m with
  | true =>
    rw [hr] at h
    simp only [if_true] at h
    by_cases hc : (handle_response st.pending m).crashed = true
    · simp [hc] at h
    · simp [hc] at h
      rcases h with ⟨h1, h2⟩
      subst h2
      intro w hw
      exact absurd hw (List.not_mem_nil w)
  | false =>
    rw [hr] at h
    simp only [Bool.false_eq_true, if_false] at h
    cases hrid : m.pyGet "id" with
    | none =>
      rw [hrid] at h
      cases hcm : methodIs m "command/execute" <;>
        · rw [hcm] at h
          simp at h
          rcases h with ⟨h1, h2⟩
          subst h2
          intro w hw
          exact absurd hw (List.not_mem_nil w)
    | some v =>
      have hv : v ≠ JVal.null := pyGet_ne_null hrid
      rw [hrid] at h
      cases hini : methodIs m "initialize" with
      | true =>
        rw [hini] at h
        simp at h
        rcases h with ⟨h1, h2⟩
        subst h2
        intro w hw
        rw [List.mem_singleton] at hw
        subst hw
        have hid1 : (wizInitResp (some v)).pyGet "id" = some v :=
          pyGet_id_field v _ hv
        have hmv : idMatches (some v) i = false := by
          unfold hasId at hm
          rw [hrid] at hm
          exact hm
        show (isRespMsg (wizInitResp (some v))
              && idMatches ((wizInitResp (some v)).pyGet "id") i) = false
        rw [hid1, hmv, Bool.and_false]
      | false =>
        rw [hini] at h
        cases hsh : methodIs m "shutdown" with
        | true =>
          rw [hsh] at h
          simp at h
        | false =>
          rw [hsh] at h
          simp at h
          rcases h with ⟨h1, h2⟩
          subst h2
          intro w hw
          rw [List.mem_singleton] at hw
          subst hw
          have hid1 : (wizErr32601 (some v)).pyGet "id" = some v :=
            pyGet_id_field v _ hv
          have hmv : idMatches (some v) i = false := by
            unfold hasId at hm
            rw [hrid] at hm
            exact hm
          show (isRespMsg (wizErr32601 (some v))
                && idMatches ((wizErr32601 (some v)).pyGet "id") i) = false
          rw [hid1, hmv, Bool.and_false]

theorem wizardSteps_resp_ids (pre : List JVal) : ∀ (st st' : WState)
    (ws : List JVal) (i : Int), wizardSteps st pre = some (st', ws) →
    (∀ m ∈ pre, hasId m i = false) →
    ∀ w ∈ ws, isRespWithId i w = false := by
  induction pre with
  | nil =>
    intro st st' ws i h hpre w hw
    unfold wizardSteps at h
    injection h with h2
    injection h2 with h3 h4
    rw [← h4] at hw
    exact absurd hw (List.not_mem_nil w)
  | cons m pre ih =>
    intro st st' ws i h hpre w hw
    unfold wizardSteps at h
    cases hstep : wizardStep st m with
    | cont st1 ws1 =>
      rw [hstep] at h
      have h' : (match wizardSteps st1 pre with
          | some (st'', ws') => some (st'', ws1 ++ ws')
          | none => none) = some (st', ws) := h
      cases hsteps : wizardSteps st1 pre with
      | none =>
        rw [hsteps] at h'
        cases h'
      | some p =>
        obtain ⟨st2, ws2⟩ := p
        rw [hsteps] at h'
        injection h' with h2
        injection h2 with h3 h4
        rw [← h4] at hw
        rcases List.mem_append.mp hw with hw1 | hw2
        · exact wizardStep_cont_resp_id st m st1 ws1 i hstep
            (hpre m (List.mem_cons_self _ _)) w hw1
        · exact ih st1 st2 ws2 i hsteps
            (fun x hx => hpre x (List.mem_cons_of_mem _ hx)) w hw2
    | exitShutdown ws1 =>
      rw [hstep] at h
      cases h
    | crashed ws1 =>
      rw [hstep] at h
      cases h

theorem wizardRun_append (pre : List JVal) : ∀ (st st' : WState)
    (ws : List JVal) (rest : List JVal),
    wizardSteps st pre = some (st', ws) →
    wizardRun st (pre ++ rest)
      = (ws ++ (wizardRun st' rest).1, (wizardRun st' rest).2) := by
  induction pre with
  | nil =>
    intro st st' ws rest h
    unfold wizardSteps at h
    injection h with h2
    injection h2 with h3 h4
    subst h3
    rw [← h4]
    simp
  | cons m pre ih =>
    intro st st' ws rest h
    unfold wizardSteps at h
    cases hstep : wizardStep st m with
    | cont st1 ws1 =>
      rw [hstep] at h
      have h' : (match wizardSteps st1 pre with
          | some (st'', ws') => some (st'', ws1 ++ ws')
          | none => none) = some (st', ws) := h
      cases hsteps : wizardSteps st1 pre with
      | none =>
        rw [hsteps] at h'
        cases h'
      | some p =>
        obtain ⟨st2, ws2⟩ := p
        rw [hsteps] at h'
        injection h' with h2
        injection h2 with h3 h4
        subst h3
        rw [← h4]
        show (match wizardStep st m with
          | .cont st'' ws'' =>
            let r := wizardRun st'' (pre ++ rest)
            (ws'' ++ r.1, r.2.1, r.2.2)
          | .exitShutdown ws'' => (ws'', WEnd.shutdownExit, pre ++ rest)
          | .crashed ws'' =>
            (ws'' ++ (closeWizardWindow st).2, WEnd.crashExit, pre ++ rest))
          = _
        rw [hstep]
        have ihr := ih st1 st2 ws2 rest hsteps
        simp only [ihr, List.append_assoc]
    | exitShutdown ws1 =>
      rw [hstep] at h
      cases h
    | crashed ws1 =>
      rw [hstep] at h
      cases h

theorem closeWW_no_resp (st : WState) (i : Int) :
    ∀ w ∈ (closeWizardWindow st).2, isRespWithId i w = false := by
  unfold closeWizardWindow
  split
  · intro w hw
    rw [List.mem_singleton] at hw
    subst hw
    show (isRespMsg (mkRequest (allocId st.nextId).1 "ui/closeWindow"
          (.obj [("windowId", st.window)])) && _) = false
    rw [show isRespMsg (mkRequest (allocId st.nextId).1 "ui/closeWindow"
          (.obj [("windowId", st.window)])) = false from rfl]
    rw [Bool.false_and]
  · intro w hw
    exact absurd hw (List.not_mem_nil w)

theorem shutdownResp_respWithId (i : Int) :
    isRespWithId i (wizShutdownResp (some (.num i))) = true := by
  have h0 : isRespWithId i (wizShutdownResp (some (.num i))) = (i == i) := rfl
  rw [h0]
  exact beq_self_eq_true i

/-- C6: once the main loop has processed any crash-free, exit-free prefix
of the stream, an inbound `shutdown` Request with a fresh id `i` makes
the wizard write (after an optional `ui/closeWindow` *request* for a
still-open window) exactly one Response carrying id `i` — the
`{success: true}` shutdown response — and then `sys.exit(0)`: the run
ends in `shutdownExit` with the rest of the stream unread. -/
theorem c6_shutdown (st : WState) (pre post : List JVal) (i : Int)
    (st' : WState) (ws : List JVal)
    (h1 : wizardSteps st pre = some (st', ws))
    (h2 : ∀ m ∈ pre, hasId m i = false) :
    wizardRun st (pre ++ shutdownMsg i :: post)
      = (ws ++ ((closeWizardWindow st').2
           ++ [wizShutdownResp (some (.num i))]),
         WEnd.shutdownExit, post)
    ∧ List.countP (isRespWithId i)
        (ws ++ ((closeWizardWindow st').2
           ++ [wizShutdownResp (some (.num i))]))
        = 1 := by
  have hrun2 : wizardRun st' (shutdownMsg i :: post)
      = ((closeWizardWindow st').2 ++ [wizShutdownResp (some (.num i))],
         WEnd.shutdownExit, post) := rfl
  constructor
  · rw [wizardRun_append pre st st' ws (shutdownMsg i :: post) h1, hrun2]
  · rw [List.countP_append, List.countP_append]
    have hc1 : List.countP (isRespWithId i) ws = 0 :=
      List.countP_eq_zero.mpr (fun w hw => by
        rw [wizardSteps_resp_ids pre st st' ws i h1 h2 w hw]
        simp)
    have hc2 : List.countP (isRespWithId i) (closeWizardWindow st').2 = 0 :=
      List.countP_eq_zero.mpr (fun w hw => by
        rw [closeWW_no_resp st' i w hw]
        simp)
    have hc3 : List.countP (isRespWithId i)
        [wizShutdownResp (some (.num i))] = 1 := by
      simp [List.countP_cons, shutdownResp_respWithId i]
    omega

theorem c6_witness :
    wizardRun wizInit ([initMsg 1] ++ shutdownMsg 2 :: [notifMsg "ping"])
      = ([wizInitResp (some (.num 1))] ++ ((closeWizardWindow wizInit).2
           ++ [wizShutdownResp (some (.num 2))]),
         WEnd.shutdownExit, [notifMsg "ping"])
    ∧ List.countP (isRespWithId 2)
        ([wizInitResp (some (.num 1))] ++ ((closeWizardWindow wizInit).2
           ++ [wizShutdownResp (some (.num 2))]))
        = 1 :=
  c6_shutdown wizInit [initMsg 1] [notifMsg "ping"] 2 wizInit
    [wizInitResp (some (.num 1))] rfl
    (by
      intro m hm
      rw [List.mem_singleton] at hm
      subst hm
      rfl)

/-! ## Frame codec writer (claim C9) -/

theorem utf8_append (a b : String) : utf8 (a ++ b) = utf8 a ++ utf8 b := by
  unfold utf8
  rw [String.data_append, List.flatMap_append]

theorem decDigits_digits : ∀ (n : Nat) (c : Char), c ∈ decDigits n →
    48 ≤ c.toNat ∧ c.toNat ≤ 57 := by
  intro n
  induction n using Nat.strong_induction_on with
  | _ n ih =>
    intro c hc
    unfold decDigits at hc
    split at hc
    · rename_i h
      rw [List.mem_singleton] at hc
      subst hc
      interval_cases n <;> decide
    · rename_i h
      rcases List.mem_append.mp hc with h1 | h2
      · exact ih (n / 10) (Nat.div_lt_self (by omega) (by omega)) c h1
      · rw [List.mem_singleton] at h2
        subst h2
        have h10 : n % 10 < 10 := Nat.mod_lt _ (by omega)
        generalize hk : n % 10 = k
        rw [hk] at h10
        interval_cases k <;> decide

theorem charUtf8_ascii (c : Char) (h : c.toNat < 128) :
    charUtf8 c = [c.toNat] := by
  unfold charUtf8
  rw [if_pos h]

theorem mem_utf8_line (n : Nat) (b : Nat)
    (hb : b ∈ utf8 ("Content-Length: " ++ (decDigits n).asString)) :
    b ≠ 13 ∧ b ≠ 10 := by
  rw [utf8_append] at hb
  rcases List.mem_append.mp hb with h1 | h2
  · have hall : ∀ x ∈ utf8 "Content-Length: ", x ≠ 13 ∧ x ≠ 10 := by decide
    exact hall b h1
  · have h2' : b ∈ (decDigits n).flatMap charUtf8 := h2
    obtain ⟨c, hc, hbc⟩ := List.mem_flatMap.mp h2'
    have hd := decDigits_digits n c hc
    rw [charUtf8_ascii c (by omega)] at hbc
    rw [List.mem_singleton] at hbc
    subst hbc
    omega

theorem afterBlank_append (pre rest : List Nat) (h : ∀ b ∈ pre, b ≠ 13) :
    afterBlank (pre ++ 13 :: 10 :: 13 :: 10 :: rest) = some rest := by
  induction pre with
  | nil => rfl
  | cons b pre ih =>
    have hb : b ≠ 13 := h b (List.mem_cons_self _ _)
    show afterBlank (b :: (pre ++ 13 :: 10 :: 13 :: 10 :: rest)) = some rest
    unfold afterBlank
    rw [if_neg hb]
    exact ih (fun x hx => h x (List.mem_cons_of_mem _ hx))

theorem write_message_split (content : String) :
    write_message content
      = utf8 ("Content-Length: "
          ++ (decDigits (utf8 content).length).asString)
        ++ (13 :: 10 :: 13 :: 10 :: utf8 content) := by
  unfold write_message
  rw [show ("Content-Length: " ++ (decDigits (utf8 content).length).asString
        ++ "\x0d\n\x0d\n")
      = (("Content-Length: " ++ (decDigits (utf8 content).length).asString)
        ++ "\x0d\n\x0d\n") from rfl]
  rw [utf8_append]
  rw [show utf8 "\x0d\n\x0d\n" = [13, 10, 13, 10] from rfl]
  simp [List.append_assoc]

/-- C9: `write_message` emits exactly one header line
`Content-Length: <N>` (its bytes contain no CR and no LF), then the blank
line, then the UTF-8 bytes of the JSON document with no trailing
delimiter, where `N` is the exact UTF-8 byte length of the document: a
reader that consumes `N` bytes after the blank line obtains precisely the
whole document, with nothing left over. -/
theorem c9_framing (content : String) :
    write_message content
      = utf8 ("Content-Length: "
          ++ (decDigits (utf8 content).length).asString)
        ++ (13 :: 10 :: 13 :: 10 :: utf8 content)
    ∧ (∀ b ∈ utf8 ("Content-Length: "
          ++ (decDigits (utf8 content).length).asString), b ≠ 13 ∧ b ≠ 10)
    ∧ afterBlank (write_message content) = some (utf8 content)
    ∧ ((afterBlank (write_message content)).getD []).take
        (utf8 content).length = utf8 content
    ∧ ((afterBlank (write_message content)).getD []).drop
        (utf8 content).length = [] := by
  have hsplit := write_message_split content
  have hline := mem_utf8_line (utf8 content).length
  have hafter : afterBlank (write_message content) = some (utf8 content) := by
    rw [hsplit]
    exact afterBlank_append _ _ (fun b hb => (hline b hb).1)
  refine ⟨hsplit, hline, hafter, ?_, ?_⟩
  · rw [hafter]
    exact List.take_length _
  · rw [hafter]
    exact List.drop_length _

/-! ## Frame codec reader: header leniency (claim C10) -/

theorem readHeaders_line : ∀ (pre : List Char) (r acc : List Char)
    (hs : List (String × String)), '\n' ∉ pre →
    readHeadersCh (pre ++ '\n' :: r) acc hs =
      (if acc.reverse ++ pre ++ ['\n'] = ['\x0d', '\n']
          ∨ acc.reverse ++ pre ++ ['\n'] = ['\n'] then some (hs, r)
       else readHeadersCh r [] (processHeaderLine hs
              (acc.reverse ++ pre ++ ['\n']))) := by
  intro pre
  induction pre with
  | nil =>
    intro r acc hs h
    show readHeadersCh ('\n' :: r) acc hs = _
    rw [show readHeadersCh ('\n' :: r) acc hs
        = (if acc.reverse ++ ['\n'] = ['\x0d', '\n']
              ∨ acc.reverse ++ ['\n'] = ['\n'] then some (hs, r)
           else readHeadersCh r []
                  (processHeaderLine hs (acc.reverse ++ ['\n']))) from by
      simp only [readHeadersCh, show ('\n' == '\n') = true from rfl, if_true]]
    rw [show acc.reverse ++ ([] : List Char) ++ ['\n']
        = acc.reverse ++ ['\n'] from by simp]
  | cons c pre ih =>
    intro r acc hs h
    have hc : c ≠ '\n' := by
      intro hcc
      exact h (hcc ▸ List.mem_cons_self _ _)
    have hcb : (c == '\n') = false := by
      simp only [beq_eq_false_iff_ne, ne_eq]
      exact hc
    show readHeadersCh (c :: (pre ++ '\n' :: r)) acc hs = _
    rw [show readHeadersCh (c :: (pre ++ '\n' :: r)) acc hs
        = readHeadersCh (pre ++ '\n' :: r) (c :: acc) hs from by
      simp only [readHeadersCh, hcb, Bool.false_eq_true, if_false]]
    rw [ih r (c :: acc) hs (fun hm => h (List.mem_cons_of_mem _ hm))]
    rw [show (c :: acc).reverse ++ pre ++ ['\n']
        = acc.reverse ++ (c :: pre) ++ ['\n'] from by
      simp [List.append_assoc]]

theorem processHeaderLine_append (hs t : List (String × String))
    (line : List Char) :
    processHeaderLine (hs ++ t) line = processHeaderLine hs line ++ t := by
  unfold processHeaderLine
  split
  · rfl
  · rfl

theorem readHeaders_extend : ∀ (s acc : List Char)
    (hs t : List (String × String)),
    readHeadersCh s acc (hs ++ t)
      = (readHeadersCh s acc hs).map (fun p => (p.1 ++ t, p.2)) := by
  intro s
  induction s with
  | nil =>
    intro acc hs t
    rfl
  | cons c s ih =>
    intro acc hs t
    show readHeadersCh (c :: s) acc (hs ++ t) = _
    unfold readHeadersCh
    cases hc : c == '\n' with
    | true =>
      simp only [hc, if_true]
      by_cases hb : acc.reverse ++ ['\n'] = ['\x0d', '\n']
          ∨ acc.reverse ++ ['\n'] = ['\n']
      · rw [if_pos hb, if_pos hb]
        rfl
      · rw [if_neg hb, if_neg hb]
        rw [processHeaderLine_append]
        exact ih [] (processHeaderLine hs (acc.reverse ++ ['\n'])) t
    | false =>
      simp only [hc, Bool.false_eq_true, if_false]
      exact ih (c :: acc) hs t

theorem lookup_append (l1 l2 : List (String × String)) (k : String) :
    List.lookup k (l1 ++ l2) = match List.lookup k l1 with
      | some v => some v
      | none => List.lookup k l2 := by
  induction l1 with
  | nil => rfl
  | cons p l1 ih =>
    obtain ⟨a, b⟩ := p
    show List.lookup k ((a, b) :: (l1 ++ l2)) = _
    cases hk : k == a with
    | true => simp [List.lookup, hk]
    | false => simp [List.lookup, hk, ih]

theorem takeWhile_no_colon (k rest : List Char) (hk : ':' ∉ k) :
    (k ++ ':' :: rest).takeWhile (fun c => !(c == ':')) = k := by
  induction k with
  | nil => rfl
  | cons c k ih =>
    have hc : (c == ':') = false := by
      simp only [beq_eq_false_iff_ne, ne_eq]
      intro hcc
      exact hk (hcc ▸ List.mem_cons_self _ _)
    show List.takeWhile _ (c :: (k ++ ':' :: rest)) = _
    rw [List.takeWhile_cons]
    rw [hc]
    simp only [Bool.not_false, if_true]
    rw [ih (fun hm => hk (List.mem_cons_of_mem _ hm))]

theorem dropWhile_no_colon (k rest : List Char) (hk : ':' ∉ k) :
    (k ++ ':' :: rest).dropWhile (fun c => !(c == ':')) = ':' :: rest := by
  induction k with
  | nil => rfl
  | cons c k ih =>
    have hc : (c == ':') = false := by
      simp only [beq_eq_false_iff_ne, ne_eq]
      intro hcc
      exact hk (hcc ▸ List.mem_cons_self _ _)
    show List.dropWhile _ (c :: (k ++ ':' :: rest)) = _
    rw [List.dropWhile_cons]
    rw [hc]
    simp only [Bool.not_false, if_true]
    exact ih (fun hm => hk (List.mem_cons_of_mem _ hm))

theorem contains_eq_false_of_not_mem {l : List Char} {c : Char}
    (h : c ∉ l) : l.contains c = false := by
  cases hc : l.contains c with
  | false => rfl
  | true =>
    exact absurd (by simp_all) h

theorem headerLine_no_colon (pre : List Char) (hs : List (String × String))
    (hp : ':' ∉ pre) :
    processHeaderLine hs (pre ++ ['\n']) = hs := by
  unfold processHeaderLine
  rw [contains_eq_false_of_not_mem (by
    intro hm
    rcases List.mem_append.mp hm with h1 | h2
    · exact hp h1
    · rw [List.mem_singleton] at h2
      cases h2)]
  simp

theorem headerLine_insert (k v : List Char) (hs : List (String × String))
    (hk : ':' ∉ k) :
    processHeaderLine hs ((k ++ ':' :: v) ++ ['\n'])
      = headersInsert hs (pyStrip k).asString
          (pyStrip (v ++ ['\n'])).asString := by
  unfold processHeaderLine
  have hmem : ':' ∈ (k ++ ':' :: v) ++ ['\n'] := by
    apply List.mem_append_left
    exact List.mem_append_right _ (List.mem_cons_self _ _)
  rw [show ((k ++ ':' :: v) ++ ['\n']).contains ':' = true from by
    simp]
  simp only [if_true]
  rw [show (k ++ ':' :: v) ++ ['\n'] = k ++ ':' :: (v ++ ['\n']) from by
    simp [List.append_assoc]]
  rw [takeWhile_no_colon k (v ++ ['\n']) hk,
      dropWhile_no_colon k (v ++ ['\n']) hk]
  rfl

/-- C10: the header parser is lenient: (1) a bare `"\n"` and a full
`"\r\n"` both terminate the header section identically; (2) a header line
without a colon is skipped with no effect; (3) a `key: value` line is
recorded with surrounding whitespace stripped from both halves (the value
as split still carries its newline, which the strip removes); (4) a header
whose stripped key is anything other than the exact string
`Content-Length` has no effect at all on the message returned by
`read_message`. -/
theorem c10_header_leniency :
    (∀ (r : List Char) (hs : List (String × String)),
       readHeadersCh ('\x0d' :: '\n' :: r) [] hs = some (hs, r)
       ∧ readHeadersCh ('\n' :: r) [] hs = some (hs, r))
    ∧ (∀ (pre r : List Char) (hs : List (String × String)),
       '\n' ∉ pre → ':' ∉ pre → pre ≠ [] → pre ≠ ['\x0d'] →
       readHeadersCh (pre ++ '\n' :: r) [] hs = readHeadersCh r [] hs)
    ∧ (∀ (k v r : List Char) (hs : List (String × String)),
       '\n' ∉ k → ':' ∉ k → '\n' ∉ v →
       readHeadersCh ((k ++ ':' :: v) ++ '\n' :: r) [] hs
         = readHeadersCh r [] (headersInsert hs (pyStrip k).asString
             (pyStrip (v ++ ['\n'])).asString))
    ∧ (∀ (k v rest : List Char),
       '\n' ∉ k → ':' ∉ k → '\n' ∉ v →
       (pyStrip k).asString ≠ "Content-Length" →
       read_message ((k ++ ':' :: v) ++ '\n' :: rest) = read_message rest) := by
  have hblank : ∀ (r : List Char) (hs : List (String × String)),
      readHeadersCh ('\x0d' :: '\n' :: r) [] hs = some (hs, r)
      ∧ readHeadersCh ('\n' :: r) [] hs = some (hs, r) := by
    intro r hs
    exact ⟨rfl, rfl⟩
  have hskip : ∀ (pre r : List Char) (hs : List (String × String)),
      '\n' ∉ pre → ':' ∉ pre → pre ≠ [] → pre ≠ ['\x0d'] →
      readHeadersCh (pre ++ '\n' :: r) [] hs = readHeadersCh r [] hs := by
    intro pre r hs h1 h2 h3 h4
    rw [readHeaders_line pre r [] hs h1]
    rw [show ([] : List Char).reverse ++ pre ++ ['\n'] = pre ++ ['\n'] from by
      simp]
    have hne : ¬(pre ++ ['\n'] = ['\x0d', '\n'] ∨ pre ++ ['\n'] = ['\n']) := by
      rintro (hh | hh)
      · apply h4
        have h5 := congrArg List.dropLast hh
        simpa [List.dropLast_concat] using h5
      · apply h3
        have h5 := congrArg List.dropLast hh
        simpa [List.dropLast_concat] using h5
    rw [if_neg hne]
    rw [headerLine_no_colon pre hs h2]
  have hrecord : ∀ (k v r : List Char) (hs : List (String × String)),
      '\n' ∉ k → ':' ∉ k → '\n' ∉ v →
      readHeadersCh ((k ++ ':' :: v) ++ '\n' :: r) [] hs
        = readHeadersCh r [] (headersInsert hs (pyStrip k).asString
            (pyStrip (v ++ ['\n'])).asString) := by
    intro k v r hs h1 h2 h3
    have hnl : '\n' ∉ (k ++ ':' :: v) := by
      intro hm
      rcases List.mem_append.mp hm with hm1 | hm2
      · exact h1 hm1
      · rcases List.mem_cons.mp hm2 with hm3 | hm4
        · cases hm3
        · exact h3 hm4
    rw [readHeaders_line (k ++ ':' :: v) r [] hs hnl]
    rw [show ([] : List Char).reverse ++ (k ++ ':' :: v) ++ ['\n']
        = (k ++ ':' :: v) ++ ['\n'] from by simp]
    have hmem : ':' ∈ (k ++ ':' :: v) ++ ['\n'] :=
      List.mem_append_left _ (List.mem_append_right _ (List.mem_cons_self _ _))
    have hne : ¬((k ++ ':' :: v) ++ ['\n'] = ['\x0d', '\n']
        ∨ (k ++ ':' :: v) ++ ['\n'] = ['\n']) := by
      rintro (hh | hh) <;> rw [hh] at hmem <;> simp at hmem
    rw [if_neg hne]
    rw [headerLine_insert k v hs h2]
  refine ⟨hblank, hskip, hrecord, ?_⟩
  intro k v rest h1 h2 h3 h4
  have hfull := hrecord k v rest [] h1 h2 h3
  rw [show headersInsert [] (pyStrip k).asString (pyStrip (v ++ ['\n'])).asString
      = [] ++ [((pyStrip k).asString, (pyStrip (v ++ ['\n'])).asString)]
      from rfl] at hfull
  rw [readHeaders_extend rest [] []
      [((pyStrip k).asString, (pyStrip (v ++ ['\n'])).asString)]] at hfull
  cases hr : readHeadersCh rest [] [] with
  | none =>
    rw [hr] at hfull
    show (match readHeadersCh ((k ++ ':' :: v) ++ '\n' :: rest) [] [] with
      | none => ReadRes.diverge
      | some (hs, r2) =>
        match contentLengthOf hs with
        | none => ReadRes.raised
        | some n =>
          if n = 0 then ReadRes.eos
          else if n < 0 then ReadRes.msg r2 []
          else ReadRes.msg (r2.take n.toNat) (r2.drop n.toNat)) = _
    rw [hfull]
    show ReadRes.diverge = read_message rest
    unfold read_message
    rw [hr]
  | some p =>
    obtain ⟨hs0, r0⟩ := p
    rw [hr] at hfull
    have hcl : contentLengthOf
        (hs0 ++ [((pyStrip k).asString, (pyStrip (v ++ ['\n'])).asString)])
        = contentLengthOf hs0 := by
      unfold contentLengthOf headersGet
      rw [lookup_append]
      cases hl : List.lookup "Content-Length" hs0 with
      | some v0 => rfl
      | none =>
        have hbe : ("Content-Length" == (pyStrip k).asString) = false := by
          simp only [beq_eq_false_iff_ne, ne_eq]
          exact fun hh => h4 hh.symm
        simp [List.lookup, hbe]
    have lhs_eq : read_message ((k ++ ':' :: v) ++ '\n' :: rest)
        = (match contentLengthOf
            (hs0 ++ [((pyStrip k).asString,
                      (pyStrip (v ++ ['\n'])).asString)]) with
          | none => ReadRes.raised
          | some n =>
            if n = 0 then ReadRes.eos
            else if n < 0 then ReadRes.msg r0 []
            else ReadRes.msg (r0.take n.toNat) (r0.drop n.toNat)) := by
      unfold read_message
      rw [hfull]
      rfl
    have rhs_eq : read_message rest
        = (match contentLengthOf hs0 with
          | none => ReadRes.raised
          | some n =>
            if n = 0 then ReadRes.eos
            else if n < 0 then ReadRes.msg r0 []
            else ReadRes.msg (r0.take n.toNat) (r0.drop n.toNat)) := by
      unfold read_message
      rw [hr]
    rw [lhs_eq, rhs_eq, hcl]

theorem c10_witness :
    (readHeadersCh ('\x0d' :: '\n' :: "abc".data) [] [("A", "B")]
       = some ([("A", "B")], "abc".data)
     ∧ readHeadersCh ('\n' :: "abc".data) [] [("A", "B")]
       = some ([("A", "B")], "abc".data))
    ∧ readHeadersCh ("X-Junk".data ++ '\n' :: "rest".data) [] []
        = readHeadersCh "rest".data [] []
    ∧ readHeadersCh ((" Key ".data ++ ':' :: " val ".data) ++ '\n' :: []) [] []
        = readHeadersCh [] []
            (headersInsert [] (pyStrip " Key ".data).asString
              (pyStrip (" val ".data ++ ['\n'])).asString)
    ∧ read_message (("X-Extra".data ++ ':' :: " 1 ".data)
        ++ '\n' :: "Content-Length: 3\x0d\n\x0d\nabcdef".data)
        = read_message "Content-Length: 3\x0d\n\x0d\nabcdef".data :=
  ⟨c10_header_leniency.1 "abc".data [("A", "B")],
   c10_header_leniency.2.1 "X-Junk".data "rest".data [] (by decide) (by decide)
     (by decide) (by decide),
   c10_header_leniency.2.2.1 " Key ".data " val ".data [] [] (by decide)
     (by decide) (by decide),
   c10_header_leniency.2.2.2 "X-Extra".data " 1 ".data
     "Content-Length: 3\x0d\n\x0d\nabcdef".data (by decide) (by decide)
     (by decide) (by decide)⟩

theorem c9_witness :
    write_message "hi"
      = utf8 ("Content-Length: " ++ (decDigits (utf8 "hi").length).asString)
        ++ (13 :: 10 :: 13 :: 10 :: utf8 "hi")
    ∧ afterBlank (write_message "hi") = some (utf8 "hi") :=
  ⟨(c9_framing "hi").1, (c9_framing "hi").2.2.1⟩
